import Mathlib

/-!
# The Lispy evaluator of `src/variables.c`

A shallow embedding of the value type, the environment, the list primitives,
the builtins and the evaluator of `src/variables.c`, and of the evaluators of
the two earlier variants `src/s_expressions.c` and `src/q_expressions.c`
(in the namespaces of these names), followed by theorems about them.

Modelling conventions.

* An `lval*` is a value of the inductive type `LVal`; ownership, `free` and
  `lval_del` have no counterpart, and of the heap only the blocks of the
  strings are modelled.
* A C string is a Lean `String`, one `Char` per C `char`; `strcmp(..) == 0`
  is equality.
* `lval_err` and `lval_copy` ask the allocator for `strlen(s + 1)` bytes, two
  less than the string with its terminating zero takes.  A block has the
  bytes the allocator of the GNU C library gives a request on LP64
  (`malloc_usable_size`).  A string that fits its block is the `String`
  written to it.  A string that does not is an `err_cut` or a `sym_cut`: it
  carries the characters inside the block, and what a reader of the string
  finds after them belongs to the allocator and is not determined by the
  program.  Reading such a name in `strcmp` is reported as `Fault.undefined`.
  The bytes `strcpy` writes past the block of a copy land in the allocator's
  own data; a run that the allocator aborts for it is not followed.
* `long` is the 64-bit two's-complement type of the LP64 targets the program is
  written for: a `Number` holds an `Int` between `LONG_MIN` and `LONG_MAX`,
  and `+`, `-`, `*` and unary minus wrap modulo `2^64` (`wrapLong`).  The
  one quotient that does not fit, `LONG_MIN / -1`, raises the processor's
  divide fault (C leaves it undefined); it is reported as `Fault.undefined`.
* The environment is mutated in place by the C code; here every function that
  receives the environment returns the new one next to its value.
* `lval_eval` recurses through `builtin_eval` on values that are not smaller
  than its argument, so it takes a bound `fuel` on the depth of nested
  `lval_eval` calls and reports `Fault.fuel` when the bound is reached.
* A builtin receives the cells of its argument S-expression `a` as a list.
-/

set_option autoImplicit false

/-! ## Values -/

/-- The native functions an `lbuiltin` pointer can point to. -/
inductive LBuiltin
  | list | head | tail | eval | join | len | define | add | sub | mul | div
  deriving DecidableEq, Repr

/-- The type tags of `enum { LVAL_NUM, LVAL_ERR, ... }`. -/
inductive LType
  | LVAL_NUM | LVAL_ERR | LVAL_SYM | LVAL_SEXPR | LVAL_QEXPR | LVAL_FUN
  deriving DecidableEq, Repr

/-- The tagged union `struct lval`: only the fields that belong to the tag. -/
inductive LVal
  | num (n : Int)
  | err (msg : String)
  | sym (s : String)
  | sexpr (cell : List LVal)
  | qexpr (cell : List LVal)
  | fn (f : LBuiltin)
  -- tag `LVAL_ERR`, the message in a block too short for it: `kept` are the
  -- characters inside the block, what follows them is not determined
  | err_cut (kept : String)
  -- tag `LVAL_SYM`, the name in a block too short for it
  | sym_cut (kept : String)
  deriving Repr

/-- The field `v->type`. -/
def LVal.type : LVal → LType
  | .num _ => .LVAL_NUM
  | .err _ => .LVAL_ERR
  | .sym _ => .LVAL_SYM
  | .sexpr _ => .LVAL_SEXPR
  | .qexpr _ => .LVAL_QEXPR
  | .fn _ => .LVAL_FUN
  | .err_cut _ => .LVAL_ERR
  | .sym_cut _ => .LVAL_SYM

/-- The field `v->count`: written by `lval_sexpr`, `lval_qexpr` and
`lval_copy` for the two list tags only, never for a leaf. -/
def LVal.count : LVal → Option Nat
  | .sexpr cell => some cell.length
  | .qexpr cell => some cell.length
  | _ => none

/-- Whether a value is a Symbol whose name is cut. -/
def LVal.is_sym_cut : LVal → Bool
  | .sym_cut _ => true
  | _ => false

/-- Smallest value of `long`. -/
def LONG_MIN : Int := -9223372036854775808

/-- Largest value of `long`. -/
def LONG_MAX : Int := 9223372036854775807

/-- The integers a `long` can hold. -/
def inLong (z : Int) : Prop := LONG_MIN ≤ z ∧ z ≤ LONG_MAX

instance (z : Int) : Decidable (inLong z) := by
  unfold inLong; exact inferInstance

/-- Two's-complement reduction of an exact result into `long`. -/
def wrapLong (z : Int) : Int := (z - LONG_MIN) % 18446744073709551616 + LONG_MIN

/-- What stops a run of the C code short of returning a value. -/
inductive Fault
  -- the source reads `cell[0]` of an empty list, a `count`/`num` field
  -- that was never written or a name past the end of its block, or divides
  -- `LONG_MIN` by `-1`
  | undefined
  -- the recursion bound given to `lval_eval` was reached
  | fuel
  deriving DecidableEq, Repr

/-- Source function `lval_num`. -/
def lval_num (x : Int) : LVal := .num x

/-- The bytes that belong to the block the allocator returns for a request
of `n` bytes: a chunk is a multiple of 16 bytes, 32 at least, and 8 of them
hold its header (`malloc_usable_size` of the GNU C library on LP64). -/
def malloc_usable_size (n : Nat) : Nat := max 32 ((n + 8 + 15) / 16 * 16) - 8

/-- The C expression `strlen(s + 1)` on a non-empty string, the byte count
`lval_err` hands to `realloc` and `lval_copy` to `malloc`: the length of the
string counted from its second character. -/
def lval_copy_malloc (s : String) : Nat := (s.data.drop 1).length

/-- The bytes a string takes, which `vsnprintf` and `strcpy` write: its
characters and the terminating zero. -/
def strcpy_bytes (s : String) : Nat := s.data.length + 1

/-- Whether a string with its terminating zero lies inside the block that
`malloc(strlen(s + 1))` returns. -/
def string_fits (s : String) : Bool :=
  decide (strcpy_bytes s ≤ malloc_usable_size (lval_copy_malloc s))

/-- The characters of `s` that lie inside the block that
`malloc(strlen(s + 1))` returns. -/
def kept_chars (s : String) : String :=
  String.mk (s.data.take (malloc_usable_size (lval_copy_malloc s)))

/-- The bytes that belong to a block of `old` bytes once `realloc(p, n)` has
shrunk it: the allocator cuts the chunk down to the one of a request of `n`
bytes when what it cuts off makes a chunk of its own, of 32 bytes or more,
and leaves it whole otherwise. -/
def realloc_usable_size (old n : Nat) : Nat :=
  if malloc_usable_size n + 32 ≤ old then malloc_usable_size n else old

/-- The bytes of the block that holds the message of an Error: the block of
`malloc(512)` after `realloc` with `strlen(v->err+1)`. -/
def lval_err_size (m : String) : Nat :=
  realloc_usable_size (malloc_usable_size 512) (lval_copy_malloc m)

/-- Source function `lval_err`, applied to the already formatted message: `vsnprintf` with
size 511 keeps at most 510 characters, and `realloc` with `strlen(v->err+1)`
shrinks the block they were written to.  (Every message of the program has
more than one character, so the byte count given to `realloc` is not zero.) -/
def lval_err (msg : String) : LVal :=
  let m := String.mk (msg.data.take 510)
  if strcpy_bytes m ≤ lval_err_size m then .err m
  else .err_cut (String.mk (m.data.take (lval_err_size m)))

/-- Source function `lval_sym`. -/
def lval_sym (s : String) : LVal := .sym s

/-- Source function `lval_sexpr`. -/
def lval_sexpr : LVal := .sexpr []

/-- Source function `lval_qexpr`. -/
def lval_qexpr : LVal := .qexpr []

/-- Source function `lval_fun`. -/
def lval_fun (func : LBuiltin) : LVal := .fn func

/-- Source function `lval_add` on the cells of `v`: `x` becomes the last cell. -/
def lval_add (cell : List LVal) (x : LVal) : List LVal := cell ++ [x]

/-- Source function `lval_pop` on the cells of `v`: the cell at `index` and the cells left;
`none` when `index` is out of bounds. -/
def lval_pop (cell : List LVal) (index : Nat) : Option (LVal × List LVal) :=
  match cell.get? index with
  | some x => some (x, cell.eraseIdx index)
  | none => none

/-- Source function `lval_take`: `lval_pop` followed by deletion of what is left. -/
def lval_take (cell : List LVal) (index : Nat) : Option LVal :=
  match lval_pop cell index with
  | some (x, _) => some x
  | none => none

mutual
/-- Source function `lval_copy`: the `switch` on the tag, lists copied cell by cell, a
string copied into a block of `strlen(s + 1)` bytes.  Of a string that is
cut already the copy keeps the same characters. -/
def lval_copy : LVal → LVal
  | .fn f => .fn f
  | .num n => .num n
  | .err m => if string_fits m then .err m else .err_cut (kept_chars m)
  | .sym s => if string_fits s then .sym s else .sym_cut (kept_chars s)
  | .sexpr cell => .sexpr (lval_copy_cells cell)
  | .qexpr cell => .qexpr (lval_copy_cells cell)
  | .err_cut k => .err_cut k
  | .sym_cut k => .sym_cut k
/-- The `for` loop of `lval_copy` over `v->cell`. -/
def lval_copy_cells : List LVal → List LVal
  | [] => []
  | c :: cs => lval_copy c :: lval_copy_cells cs
end

/-- Source function `lval_join` on cells: every cell of `y` is popped from its front and added
to `x`. -/
def lval_join (x : List LVal) : List LVal → List LVal
  | [] => x
  | c :: y => lval_join (lval_add x c) y

/-! ## Environment -/

/-- Source type `struct lenv`: the parallel arrays `syms` and `vals`, entry by entry. -/
abbrev lenv := List (String × LVal)

/-- Source function `lenv_new`. -/
def lenv_new : lenv := []

/-- Source function `lenv_get` for the symbol name `k->sym`. -/
def lenv_get : lenv → String → LVal
  | [], k => lval_err ("unbound symbol '" ++ k ++ "'")
  | (s, v) :: rest, k => if s = k then lval_copy v else lenv_get rest k

/-- Source function `lenv_put` for the symbol name `k->sym`. -/
def lenv_put : lenv → String → LVal → lenv
  | [], k, v => [(k, lval_copy v)]
  | (s, x) :: rest, k, v =>
    if s = k then (s, lval_copy v) :: rest else (s, x) :: lenv_put rest k v

/-- Result of a builtin or of the evaluator: the returned value with the
environment as the call left it. -/
abbrev Res := Except Fault (LVal × lenv)

/-! ## Builtins -/

/-- The `return err;` of a failed `LASSERT`: an `Error` value, the
environment as it was. -/
def lassert_fail (e : lenv) (msg : String) : Res := .ok (lval_err msg, e)

/-- Source function `builtin_tail`. -/
def builtin_tail (e : lenv) (a : List LVal) : Res :=
  if a.length ≠ 1 then lassert_fail e "Function 'tail' passed too many arguments!"
  else
    match a with
    | [] => .error .undefined
    | x :: _ =>
      match x with
      | .qexpr cell =>
        if cell.length = 0 then lassert_fail e "Function 'tail' passed '\x7b\x7d'!"
        else
          match lval_pop cell 0 with
          | some (_, rest) => .ok (.qexpr rest, e)
          | none => .error .undefined
      | _ => lassert_fail e "Function 'tail' passed incorrect type!"

/-- Source function `builtin_list`: the argument list itself, retagged. -/
def builtin_list (e : lenv) (a : List LVal) : Res := .ok (.qexpr a, e)

/-- Source function `builtin_eval`, with `ev` standing for the recursive call of `lval_eval`. -/
def builtin_eval (ev : lenv → LVal → Res) (e : lenv) (a : List LVal) : Res :=
  if a.length ≠ 1 then lassert_fail e "Function 'eval' passed too many arguments!"
  else
    match a with
    | [] => .error .undefined
    | x :: _ =>
      match x with
      | .qexpr cell => ev e (.sexpr cell)
      | _ => lassert_fail e "Function 'eval' passed incorrect type!"

/-- The `while (a->count)` loop of `builtin_join`: `x` holds the cells joined
so far, the list holds what is left of `a` (Q-expressions only, by the test
that precedes the loop). -/
def join_loop (x : List LVal) : List LVal → Except Fault (List LVal)
  | [] => .ok x
  | .qexpr y :: rest => join_loop (lval_join x y) rest
  | _ :: _ => .error .undefined

/-- Source function `builtin_join`. -/
def builtin_join (e : lenv) (a : List LVal) : Res :=
  if a.any (fun c => decide (c.type ≠ .LVAL_QEXPR)) then
    lassert_fail e "Function 'join' passed incorrect type!"
  else
    match a with
    | [] => .error .undefined
    | .qexpr x :: rest =>
      match join_loop x rest with
      | .ok cell => .ok (.qexpr cell, e)
      | .error f => .error f
    | _ :: _ => .error .undefined

/-- The `while (a->count > 0)` loop of `builtin_op`: `x` is `x->num`, the
list is what is left of `a`.  The four `strcmp` tests exclude one another, so
they are written as one chain. -/
def op_loop (op : String) : Int → List LVal → Except Fault LVal
  | x, [] => .ok (.num x)
  | x, .num y :: rest =>
    if op = "+" then op_loop op (wrapLong (x + y)) rest
    else if op = "-" then op_loop op (wrapLong (x - y)) rest
    else if op = "*" then op_loop op (wrapLong (x * y)) rest
    else if op = "/" then
      if y = 0 then .ok (lval_err "Division by zero!")
      else if x = LONG_MIN ∧ y = -1 then .error .undefined
      else op_loop op (Int.tdiv x y) rest
    else op_loop op x rest
  | _, _ :: _ => .error .undefined

/-- Source function `builtin_op`. -/
def builtin_op (e : lenv) (a : List LVal) (op : String) : Res :=
  if a.any (fun c => decide (c.type ≠ .LVAL_NUM)) then
    lassert_fail e "Cannot operate on non-numbers!"
  else
    match a with
    | [] => .error .undefined
    | .num x :: rest =>
      match op_loop op (if op = "-" ∧ rest.length = 0 then wrapLong (-x) else x) rest with
      | .ok r => .ok (r, e)
      | .error f => .error f
    | _ :: _ => .error .undefined

/-- The `while (v->count > 1)` loop of `builtin_head`, which pops the cell at
index 1: `x` is the cell at index 0, the list the cells after it. -/
def head_loop (x : LVal) : List LVal → List LVal
  | [] => [x]
  | _ :: rest => head_loop x rest

/-- Source function `builtin_head`. -/
def builtin_head (e : lenv) (a : List LVal) : Res :=
  if a.length ≠ 1 then
    lassert_fail e ("Function 'head' passed too many arguments! Got "
      ++ toString a.length ++ ", expected " ++ toString 1)
  else
    match a with
    | [] => .error .undefined
    | x :: _ =>
      match x with
      | .qexpr cell =>
        match cell with
        | [] => lassert_fail e "Function 'head' passed '\x7b\x7d'!"
        | c :: cs => .ok (.qexpr (head_loop c cs), e)
      | _ => lassert_fail e "Function 'head' passed incorrect type!"

/-- Source function `builtin_len`: no test of the tag of `a->cell[0]` precedes the read of
its `count`. -/
def builtin_len (e : lenv) (a : List LVal) : Res :=
  if a.length ≠ 1 then lassert_fail e "Function 'len' passed too many arguments!"
  else
    match a with
    | [] => .error .undefined
    | x :: _ =>
      match x.count with
      | none => .error .undefined
      | some n =>
        if n = 0 then lassert_fail e "Function 'len' passed '\x7b\x7d'!"
        else .ok (lval_num n, e)

/-- Source function `builtin_add`. -/
def builtin_add (e : lenv) (a : List LVal) : Res := builtin_op e a "+"

/-- Source function `builtin_sub`. -/
def builtin_sub (e : lenv) (a : List LVal) : Res := builtin_op e a "-"

/-- Source function `builtin_mul`. -/
def builtin_mul (e : lenv) (a : List LVal) : Res := builtin_op e a "*"

/-- Source function `builtin_div`. -/
def builtin_div (e : lenv) (a : List LVal) : Res := builtin_op e a "/"

/-- The second `for` loop of `builtin_def`: `lenv_put` of each name with the
argument at the same position. -/
def def_loop : lenv → List LVal → List LVal → lenv
  | e, .sym k :: ks, v :: vs => def_loop (lenv_put e k v) ks vs
  | e, _, _ => e

/-- Source function `builtin_def`; `lenv_put` compares the name it is given by `strcmp`,
which has no defined outcome on a name that is cut. -/
def builtin_def (e : lenv) (a : List LVal) : Res :=
  match a with
  | [] => .error .undefined
  | syms :: vals =>
    match syms with
    | .qexpr names =>
      if names.any (fun c => decide (c.type ≠ .LVAL_SYM)) then
        lassert_fail e "Function 'def' cannot define non-symbol!"
      else if names.length ≠ a.length - 1 then
        lassert_fail e "Function 'def' cannot define incorrect number of values to symbols!"
      else if names.any LVal.is_sym_cut then .error .undefined
      else .ok (lval_sexpr, def_loop e names vals)
    | _ => lassert_fail e "Function 'def' passed incorrect type!"

/-- Source function `lenv_add_builtin`. -/
def lenv_add_builtin (e : lenv) (name : String) (func : LBuiltin) : lenv :=
  lenv_put e (name) (lval_fun func)

/-- Source function `lenv_add_builtins`. -/
def lenv_add_builtins (e : lenv) : lenv :=
  let e := lenv_add_builtin e "list" .list
  let e := lenv_add_builtin e "head" .head
  let e := lenv_add_builtin e "tail" .tail
  let e := lenv_add_builtin e "eval" .eval
  let e := lenv_add_builtin e "join" .join
  let e := lenv_add_builtin e "len" .len
  let e := lenv_add_builtin e "def" .define
  let e := lenv_add_builtin e "+" .add
  let e := lenv_add_builtin e "-" .sub
  let e := lenv_add_builtin e "*" .mul
  lenv_add_builtin e "/" .div

/-! ## Evaluator -/

/-- The call `f->fun(e, v)` through the function pointer. -/
def lval_call (ev : lenv → LVal → Res) : LBuiltin → lenv → List LVal → Res
  | .list, e, a => builtin_list e a
  | .head, e, a => builtin_head e a
  | .tail, e, a => builtin_tail e a
  | .eval, e, a => builtin_eval ev e a
  | .join, e, a => builtin_join e a
  | .len, e, a => builtin_len e a
  | .define, e, a => builtin_def e a
  | .add, e, a => builtin_add e a
  | .sub, e, a => builtin_sub e a
  | .mul, e, a => builtin_mul e a
  | .div, e, a => builtin_div e a

/-- The first `for` loop of `lval_eval_sexpr`: every cell is replaced by its
value, left to right, in the environment the cells before it left. -/
def eval_cells (ev : lenv → LVal → Res) : lenv → List LVal → Except Fault (List LVal × lenv)
  | e, [] => .ok ([], e)
  | e, c :: cs =>
    match ev e c with
    | .error f => .error f
    | .ok (c', e1) =>
      match eval_cells ev e1 cs with
      | .error f => .error f
      | .ok (cs', e2) => .ok (c' :: cs', e2)

/-- The second `for` loop of `lval_eval_sexpr`: the first cell whose tag is
`LVAL_ERR`. -/
def first_err : List LVal → Option LVal
  | [] => none
  | c :: cs => if c.type = .LVAL_ERR then some c else first_err cs

/-- Source function `lval_eval_sexpr`, with `ev` standing for the recursive call of
`lval_eval`. -/
def lval_eval_sexpr (ev : lenv → LVal → Res) (e : lenv) (cell : List LVal) : Res :=
  match eval_cells ev e cell with
  | .error f => .error f
  | .ok (cell', e') =>
    match first_err cell' with
    | some x => .ok (x, e')
    | none =>
      match cell' with
      | [] => .ok (.sexpr [], e')
      | [x] => .ok (x, e')
      | f :: args =>
        match f with
        | .fn func => lval_call ev func e' args
        | _ => .ok (lval_err "S-expression does not start with a function!", e')

/-- Source function `lval_eval`; `fuel` bounds the depth of nested calls.  `lenv_get`
compares the name of the Symbol by `strcmp`, which has no defined outcome on
a name that is cut. -/
def lval_eval : Nat → lenv → LVal → Res
  | 0, _, _ => .error .fuel
  | fuel + 1, e, v =>
    match v with
    | .sym s => .ok (lenv_get e s, e)
    | .sym_cut _ => .error .undefined
    | .sexpr cell => lval_eval_sexpr (lval_eval fuel) e cell
    | v => .ok (v, e)

/-- The environment `main` evaluates in: `lenv_new` followed by
`lenv_add_builtins`. -/
def builtin_env : lenv := lenv_add_builtins lenv_new

/-- The environments `main` reaches: the builtin environment, and every
environment that an evaluation which returns leaves behind. -/
inductive lenv_reachable : lenv → Prop
  | start : lenv_reachable builtin_env
  | step (fuel : Nat) (e e' : lenv) (v r : LVal) :
      lenv_reachable e → lval_eval fuel e v = .ok (r, e') → lenv_reachable e'

/-! ## The evaluator with the function pointer left open -/

/-- Source function `lval_eval_sexpr`, where `call` stands for whatever the
function pointer `f->fun` leads to. -/
def lval_eval_sexpr_with (call : LBuiltin → lenv → List LVal → Res)
    (ev : lenv → LVal → Res) (e : lenv) (cell : List LVal) : Res :=
  match eval_cells ev e cell with
  | .error f => .error f
  | .ok (cell', e') =>
    match first_err cell' with
    | some x => .ok (x, e')
    | none =>
      match cell' with
      | [] => .ok (.sexpr [], e')
      | [x] => .ok (x, e')
      | f :: args =>
        match f with
        | .fn func => call func e' args
        | _ => .ok (lval_err "S-expression does not start with a function!", e')

/-- Source function `lval_eval` over `lval_eval_sexpr_with`; `call` receives
the evaluator that `builtin_eval` re-enters. -/
def lval_eval_with (call : (lenv → LVal → Res) → LBuiltin → lenv → List LVal → Res) :
    Nat → lenv → LVal → Res
  | 0, _, _ => .error .fuel
  | fuel + 1, e, v =>
    match v with
    | .sym s => .ok (lenv_get e s, e)
    | .sym_cut _ => .error .undefined
    | .sexpr cell =>
      lval_eval_sexpr_with (call (lval_eval_with call fuel)) (lval_eval_with call fuel) e cell
    | v => .ok (v, e)

mutual
/-- Nesting depth of a value: `0` for a leaf, one more than the deepest cell
for an S-expression or a Q-expression. -/
def lval_depth : LVal → Nat
  | .sexpr cell => lval_depth_cells cell + 1
  | .qexpr cell => lval_depth_cells cell + 1
  | _ => 0
/-- Greatest nesting depth among the cells of a list. -/
def lval_depth_cells : List LVal → Nat
  | [] => 0
  | c :: cs => max (lval_depth c) (lval_depth_cells cs)
end

mutual
/-- Whether `lval_copy` has room for every string of a value: no string is
cut and each fits the block asked for with `strlen(s + 1)`. -/
def lval_fits : LVal → Bool
  | .err m => string_fits m
  | .sym s => string_fits s
  | .sexpr cell => lval_fits_cells cell
  | .qexpr cell => lval_fits_cells cell
  | .err_cut _ => false
  | .sym_cut _ => false
  | _ => true
/-- Whether `lval_copy` has room for every string in the cells of a list. -/
def lval_fits_cells : List LVal → Bool
  | [] => true
  | c :: cs => lval_fits c && lval_fits_cells cs
end

/-- The values evaluation returns: a Number, an Error, a Q-expression, a
Function or the empty S-expression. -/
def lval_normal (v : LVal) : Prop :=
  v.type = .LVAL_NUM ∨ v.type = .LVAL_ERR ∨ v.type = .LVAL_QEXPR ∨ v.type = .LVAL_FUN
    ∨ v = .sexpr []

/-- The values `builtin_def` stores: a Number, a Q-expression, a Function or
the empty S-expression. -/
def lval_storable (v : LVal) : Prop :=
  v.type = .LVAL_NUM ∨ v.type = .LVAL_QEXPR ∨ v.type = .LVAL_FUN ∨ v = .sexpr []

/-! ## The evaluator of `src/s_expressions.c`

The variant without Q-expressions, functions and environment: the operator
of an S-expression is a Symbol handed to `builtin_op` by name.  Its `enum`
holds the first four tags of `LType`; `lval_err` copies its message whole. -/

namespace s_expressions

/-- The tagged union `struct lval` of `src/s_expressions.c`. -/
inductive lval
  | num (n : Int)
  | err (m : String)
  | sym (s : String)
  | sexpr (cell : List lval)
  deriving Repr

/-- The field `v->type`. -/
def lval.type : lval → LType
  | .num _ => .LVAL_NUM
  | .err _ => .LVAL_ERR
  | .sym _ => .LVAL_SYM
  | .sexpr _ => .LVAL_SEXPR

/-- Source function `lval_err` of `src/s_expressions.c`. -/
def lval_err (m : String) : lval := .err m

/-- The `while (a->count > 0)` loop of `builtin_op`: `x` is `x->num`, the
list is what is left of `a`.  When `op` is none of the four operators no
`strcmp` test holds and the popped argument is dropped. -/
def op_loop (op : String) : Int → List lval → Except Fault lval
  | x, [] => .ok (.num x)
  | x, .num y :: rest =>
    if op = "+" then op_loop op (wrapLong (x + y)) rest
    else if op = "-" then op_loop op (wrapLong (x - y)) rest
    else if op = "*" then op_loop op (wrapLong (x * y)) rest
    else if op = "/" then
      if y = 0 then .ok (lval_err "Division by zero!")
      else if x = LONG_MIN ∧ y = -1 then .error .undefined
      else op_loop op (Int.tdiv x y) rest
    else op_loop op x rest
  | _, _ :: _ => .error .undefined

/-- Source function `builtin_op` of `src/s_expressions.c`. -/
def builtin_op (a : List lval) (op : String) : Except Fault lval :=
  if a.any (fun c => decide (c.type ≠ .LVAL_NUM)) then
    .ok (lval_err "Cannot operate on non-numbers!")
  else
    match a with
    | [] => .error .undefined
    | .num x :: rest =>
      op_loop op (if op = "-" ∧ rest.length = 0 then wrapLong (-x) else x) rest
    | _ :: _ => .error .undefined

/-- The second `for` loop of `lval_eval_sexpr`: the first cell tagged
`LVAL_ERR`. -/
def first_err : List lval → Option lval
  | [] => none
  | c :: cs => if c.type = .LVAL_ERR then some c else first_err cs

/-- What `lval_eval_sexpr` does once its first loop has replaced every cell
by its value. -/
def lval_eval_sexpr_rest (cell : List lval) : Except Fault lval :=
  match first_err cell with
  | some x => .ok x
  | none =>
    match cell with
    | [] => .ok (.sexpr [])
    | [x] => .ok x
    | f :: args =>
      match f with
      | .sym s => builtin_op args s
      | _ => .ok (lval_err "S-expression does not start with a symbol!")

mutual
/-- Source function `lval_eval` of `src/s_expressions.c`, the body of
`lval_eval_sexpr` unfolded in its S-expression case. -/
def lval_eval : lval → Except Fault lval
  | .sexpr cell =>
    match eval_cells cell with
    | .error f => .error f
    | .ok cell' => lval_eval_sexpr_rest cell'
  | v => .ok v
/-- The first `for` loop of `lval_eval_sexpr`: every cell replaced by its
value, left to right. -/
def eval_cells : List lval → Except Fault (List lval)
  | [] => .ok []
  | c :: cs =>
    match lval_eval c with
    | .error f => .error f
    | .ok c' =>
      match eval_cells cs with
      | .error f => .error f
      | .ok cs' => .ok (c' :: cs')
end

/-- Source function `lval_eval_sexpr` of `src/s_expressions.c`. -/
def lval_eval_sexpr (cell : List lval) : Except Fault lval :=
  match eval_cells cell with
  | .error f => .error f
  | .ok cell' => lval_eval_sexpr_rest cell'

end s_expressions

/-! ## The evaluator of `src/q_expressions.c`

The variant with Q-expressions and builtins dispatched by name, still
without functions as values and without environment.  Its `enum` holds the
first five tags of `LType`; `lval_err` copies its message whole; the
recursion of `lval_eval` through `builtin_eval` is bounded by `fuel` as in
the model of `src/variables.c`. -/

/-- The C library function `strstr` on the characters of its two arguments,
as a test: whether `needle` occurs in `haystack` (the pointer returned is
not null).  The empty `needle` occurs in every `haystack`. -/
def strstr_chars : List Char → List Char → Bool
  | [], needle => needle.isEmpty
  | c :: rest, needle => needle.isPrefixOf (c :: rest) || strstr_chars rest needle

/-- The test `strstr(haystack, needle)` of a C condition. -/
def strstr (haystack needle : String) : Bool := strstr_chars haystack.data needle.data

namespace q_expressions

/-- The tagged union `struct lval` of `src/q_expressions.c`. -/
inductive lval
  | num (n : Int)
  | err (m : String)
  | sym (s : String)
  | sexpr (cell : List lval)
  | qexpr (cell : List lval)
  deriving Repr

/-- The field `v->type`. -/
def lval.type : lval → LType
  | .num _ => .LVAL_NUM
  | .err _ => .LVAL_ERR
  | .sym _ => .LVAL_SYM
  | .sexpr _ => .LVAL_SEXPR
  | .qexpr _ => .LVAL_QEXPR

/-- The field `v->count`, written for the two list tags only. -/
def lval.count : lval → Option Nat
  | .sexpr cell => some cell.length
  | .qexpr cell => some cell.length
  | _ => none

/-- Source function `lval_err` of `src/q_expressions.c`. -/
def lval_err (m : String) : lval := .err m

/-- Source function `lval_num`. -/
def lval_num (x : Int) : lval := .num x

/-- Source function `lval_join` on cells: the cells of `y` moved behind
those of `x`, one by one from the front. -/
def lval_join (x : List lval) : List lval → List lval
  | [] => x
  | c :: y => lval_join (x ++ [c]) y

/-- Source function `builtin_tail` of `src/q_expressions.c`. -/
def builtin_tail (a : List lval) : Except Fault lval :=
  if a.length ≠ 1 then .ok (lval_err "Function 'tail' passed too many arguments!")
  else
    match a with
    | [] => .error .undefined
    | x :: _ =>
      match x with
      | .qexpr cell =>
        match cell with
        | [] => .ok (lval_err "Function 'tail' passed '\x7b\x7d'!")
        | _ :: rest => .ok (.qexpr rest)
      | _ => .ok (lval_err "Function 'tail' passed incorrect type!")

/-- Source function `builtin_list` of `src/q_expressions.c`. -/
def builtin_list (a : List lval) : Except Fault lval := .ok (.qexpr a)

/-- Source function `builtin_eval` of `src/q_expressions.c`, with `ev`
standing for the recursive call of `lval_eval`. -/
def builtin_eval (ev : lval → Except Fault lval) (a : List lval) : Except Fault lval :=
  if a.length ≠ 1 then .ok (lval_err "Function 'eval' passed too many arguments!")
  else
    match a with
    | [] => .error .undefined
    | x :: _ =>
      match x with
      | .qexpr cell => ev (.sexpr cell)
      | _ => .ok (lval_err "Function 'eval' passed incorrect type!")

/-- The `while (a->count)` loop of `builtin_join`. -/
def join_loop (x : List lval) : List lval → Except Fault (List lval)
  | [] => .ok x
  | .qexpr y :: rest => join_loop (lval_join x y) rest
  | _ :: _ => .error .undefined

/-- Source function `builtin_join` of `src/q_expressions.c`. -/
def builtin_join (a : List lval) : Except Fault lval :=
  if a.any (fun c => decide (c.type ≠ .LVAL_QEXPR)) then
    .ok (lval_err "Function 'join' passed incorrect type!")
  else
    match a with
    | [] => .error .undefined
    | .qexpr x :: rest =>
      match join_loop x rest with
      | .ok cell => .ok (.qexpr cell)
      | .error f => .error f
    | _ :: _ => .error .undefined

/-- The `while (a->count > 0)` loop of `builtin_op`; when `op` is none of
the four operators no `strcmp` test holds and the popped argument is
dropped. -/
def op_loop (op : String) : Int → List lval → Except Fault lval
  | x, [] => .ok (.num x)
  | x, .num y :: rest =>
    if op = "+" then op_loop op (wrapLong (x + y)) rest
    else if op = "-" then op_loop op (wrapLong (x - y)) rest
    else if op = "*" then op_loop op (wrapLong (x * y)) rest
    else if op = "/" then
      if y = 0 then .ok (lval_err "Division by zero!")
      else if x = LONG_MIN ∧ y = -1 then .error .undefined
      else op_loop op (Int.tdiv x y) rest
    else op_loop op x rest
  | _, _ :: _ => .error .undefined

/-- Source function `builtin_op` of `src/q_expressions.c`. -/
def builtin_op (a : List lval) (op : String) : Except Fault lval :=
  if a.any (fun c => decide (c.type ≠ .LVAL_NUM)) then
    .ok (lval_err "Cannot operate on non-numbers!")
  else
    match a with
    | [] => .error .undefined
    | .num x :: rest =>
      op_loop op (if op = "-" ∧ rest.length = 0 then wrapLong (-x) else x) rest
    | _ :: _ => .error .undefined

/-- The `while (v->count > 1)` loop of `builtin_head`. -/
def head_loop (x : lval) : List lval → List lval
  | [] => [x]
  | _ :: rest => head_loop x rest

/-- Source function `builtin_head` of `src/q_expressions.c`. -/
def builtin_head (a : List lval) : Except Fault lval :=
  if a.length ≠ 1 then .ok (lval_err "Function 'head' passed too many arguments!")
  else
    match a with
    | [] => .error .undefined
    | x :: _ =>
      match x with
      | .qexpr cell =>
        match cell with
        | [] => .ok (lval_err "Function 'head' passed '\x7b\x7d'!")
        | c :: cs => .ok (.qexpr (head_loop c cs))
      | _ => .ok (lval_err "Function 'head' passed incorrect type!")

/-- Source function `builtin_len` of `src/q_expressions.c`. -/
def builtin_len (a : List lval) : Except Fault lval :=
  if a.length ≠ 1 then .ok (lval_err "Function 'len' passed too many arguments!")
  else
    match a with
    | [] => .error .undefined
    | x :: _ =>
      match x.count with
      | none => .error .undefined
      | some n =>
        if n = 0 then .ok (lval_err "Function 'len' passed '\x7b\x7d'!")
        else .ok (lval_num n)

/-- Source function `builtin` of `src/q_expressions.c`: the dispatch by
name, with `ev` standing for the `lval_eval` that `builtin_eval` calls. -/
def builtin (ev : lval → Except Fault lval) (a : List lval) (func : String) :
    Except Fault lval :=
  if "list" = func then builtin_list a
  else if "head" = func then builtin_head a
  else if "tail" = func then builtin_tail a
  else if "join" = func then builtin_join a
  else if "eval" = func then builtin_eval ev a
  else if "len" = func then builtin_len a
  else if strstr "+-/*" func then builtin_op a func
  else .ok (lval_err "Unknown Function!")

/-- The first `for` loop of `lval_eval_sexpr`. -/
def eval_cells (ev : lval → Except Fault lval) : List lval → Except Fault (List lval)
  | [] => .ok []
  | c :: cs =>
    match ev c with
    | .error f => .error f
    | .ok c' =>
      match eval_cells ev cs with
      | .error f => .error f
      | .ok cs' => .ok (c' :: cs')

/-- The second `for` loop of `lval_eval_sexpr`. -/
def first_err : List lval → Option lval
  | [] => none
  | c :: cs => if c.type = .LVAL_ERR then some c else first_err cs

/-- Source function `lval_eval_sexpr` of `src/q_expressions.c`, with `ev`
standing for the recursive call of `lval_eval`. -/
def lval_eval_sexpr (ev : lval → Except Fault lval) (cell : List lval) : Except Fault lval :=
  match eval_cells ev cell with
  | .error f => .error f
  | .ok cell' =>
    match first_err cell' with
    | some x => .ok x
    | none =>
      match cell' with
      | [] => .ok (.sexpr [])
      | [x] => .ok x
      | f :: args =>
        match f with
        | .sym s => builtin ev args s
        | _ => .ok (lval_err "S-expression does not start with a symbol!")

/-- Source function `lval_eval` of `src/q_expressions.c`; `fuel` bounds the
depth of nested calls. -/
def lval_eval : Nat → lval → Except Fault lval
  | 0, _ => .error .fuel
  | fuel + 1, v =>
    match v with
    | .sexpr cell => lval_eval_sexpr (lval_eval fuel) cell
    | v => .ok v

end q_expressions

/-! ## Size of a value of `src/q_expressions.c` -/

namespace q_expressions

mutual
/-- Node count of a value: `1` for a leaf, one more than the node counts of
its cells for an S-expression or a Q-expression. -/
def lval_size : lval → Nat
  | .sexpr cell => lval_size_cells cell + 1
  | .qexpr cell => lval_size_cells cell + 1
  | _ => 1
/-- Sum of the node counts of the cells of a list. -/
def lval_size_cells : List lval → Nat
  | [] => 0
  | c :: cs => lval_size c + lval_size_cells cs
end

end q_expressions

/-! ## Auxiliary lemmas -/

mutual
theorem lval_copy_id : ∀ v : LVal, lval_fits v = true → lval_copy v = v
  | .fn _, _ => rfl
  | .num _, _ => rfl
  | .err m, h => by
    rw [lval_fits] at h
    rw [lval_copy, if_pos h]
  | .sym s, h => by
    rw [lval_fits] at h
    rw [lval_copy, if_pos h]
  | .sexpr cell, h => by
    rw [lval_fits] at h
    rw [lval_copy, lval_copy_cells_id cell h]
  | .qexpr cell, h => by
    rw [lval_fits] at h
    rw [lval_copy, lval_copy_cells_id cell h]
  | .err_cut _, _ => rfl
  | .sym_cut _, _ => rfl
theorem lval_copy_cells_id : ∀ cs : List LVal, lval_fits_cells cs = true → lval_copy_cells cs = cs
  | [], _ => rfl
  | c :: cs, h => by
    rw [lval_fits_cells, Bool.and_eq_true] at h
    rw [lval_copy_cells, lval_copy_id c h.1, lval_copy_cells_id cs h.2]
end

theorem lval_copy_type (v : LVal) : (lval_copy v).type = v.type := by
  cases v with
  | err m => rw [lval_copy]; split <;> rfl
  | sym s => rw [lval_copy]; split <;> rfl
  | sexpr _ => rw [lval_copy]; rfl
  | qexpr _ => rw [lval_copy]; rfl
  | _ => rfl

theorem lval_copy_sexpr_nil : lval_copy (.sexpr []) = .sexpr [] := by
  rw [lval_copy, lval_copy_cells]

theorem lval_err_type (msg : String) : (lval_err msg).type = .LVAL_ERR := by
  simp only [lval_err]
  split <;> rfl

theorem string_fits_iff (s : String) :
    string_fits s = true ↔
      (s.data.length < 24 ∨ (s.data.length % 16 ≠ 8 ∧ s.data.length % 16 ≠ 9)) := by
  simp only [string_fits, strcpy_bytes, lval_copy_malloc, malloc_usable_size, decide_eq_true_eq,
    List.length_drop]
  omega

theorem lval_err_size_iff (m : String) (hlen : m.data.length ≤ 510) :
    strcpy_bytes m ≤ lval_err_size m ↔
      (m.data.length < 24 ∨ 490 ≤ m.data.length
        ∨ (m.data.length % 16 ≠ 8 ∧ m.data.length % 16 ≠ 9)) := by
  simp only [lval_err_size, realloc_usable_size, strcpy_bytes, lval_copy_malloc,
    malloc_usable_size, List.length_drop]
  split <;> omega

theorem lval_err_whole (msg : String) (hlen : msg.data.length ≤ 510)
    (hfit : msg.data.length < 24 ∨ 490 ≤ msg.data.length
      ∨ (msg.data.length % 16 ≠ 8 ∧ msg.data.length % 16 ≠ 9)) :
    lval_err msg = .err msg := by
  have hm : String.mk (msg.data.take 510) = msg := by
    rw [List.take_of_length_le hlen]
  have h := (lval_err_size_iff msg hlen).mpr hfit
  simp only [lval_err, hm, h, if_true]

theorem first_err_of_index (cell : List LVal) :
    ∀ (i : Nat) (x : LVal), cell[i]? = some x → x.type = .LVAL_ERR →
      (∀ (j : Nat) (y : LVal), j < i → cell[j]? = some y → y.type ≠ .LVAL_ERR) →
      first_err cell = some x := by
  induction cell with
  | nil => intro i x h; simp at h
  | cons c cs ih =>
    intro i x h hx hmin
    cases i with
    | zero =>
      simp at h
      subst h
      simp [first_err, hx]
    | succ i =>
      have hc : c.type ≠ .LVAL_ERR := hmin 0 c (Nat.succ_pos i) (by simp)
      simp only [first_err, hc, if_false]
      apply ih i x (by simpa using h) hx
      intro j y hj hy
      exact hmin (j + 1) y (Nat.succ_lt_succ hj) (by simpa using hy)

theorem first_err_type (cell : List LVal) (x : LVal) (h : first_err cell = some x) :
    x.type = .LVAL_ERR := by
  induction cell with
  | nil => simp [first_err] at h
  | cons c cs ih =>
    by_cases hc : c.type = .LVAL_ERR
    · simp [first_err, hc] at h; subst h; exact hc
    · simp [first_err, hc] at h; exact ih h

theorem first_err_none_iff (cell : List LVal) :
    first_err cell = none ↔ ∀ x ∈ cell, x.type ≠ .LVAL_ERR := by
  induction cell with
  | nil => simp [first_err]
  | cons c cs ih =>
    by_cases hc : c.type = .LVAL_ERR
    · simp [first_err, hc]
    · simp [first_err, hc, ih]

theorem eval_cells_append (ev : lenv → LVal → Res) (cs1 cs2 : List LVal) :
    ∀ e : lenv, eval_cells ev e (cs1 ++ cs2) =
      match eval_cells ev e cs1 with
      | .error f => .error f
      | .ok (c1, e1) =>
        match eval_cells ev e1 cs2 with
        | .error f => .error f
        | .ok (c2, e2) => .ok (c1 ++ c2, e2) := by
  induction cs1 with
  | nil =>
    intro e
    rw [List.nil_append]
    cases h : eval_cells ev e cs2 with
    | error f => simp [eval_cells, h]
    | ok r => simp [eval_cells, h]
  | cons c cs ih =>
    intro e
    rw [List.cons_append, eval_cells, eval_cells]
    cases hc : ev e c with
    | error f => rfl
    | ok r =>
      obtain ⟨c', e1⟩ := r
      simp only []
      rw [ih e1]
      cases hcs : eval_cells ev e1 cs with
      | error f => rfl
      | ok r1 =>
        obtain ⟨c1, e2⟩ := r1
        simp only []
        cases hcs2 : eval_cells ev e2 cs2 with
        | error f => rfl
        | ok r2 => rfl

theorem eval_cells_length (ev : lenv → LVal → Res) (cell : List LVal) :
    ∀ (e e' : lenv) (cell' : List LVal), eval_cells ev e cell = .ok (cell', e') →
      cell'.length = cell.length := by
  induction cell with
  | nil => intro e e' cell' h; simp [eval_cells] at h; simp [h.1.symm]
  | cons c cs ih =>
    intro e e' cell' h
    simp only [eval_cells] at h
    cases hc : ev e c with
    | error f => simp [hc] at h
    | ok r =>
      obtain ⟨c', e1⟩ := r
      simp only [hc] at h
      cases hcs : eval_cells ev e1 cs with
      | error f => simp [hcs] at h
      | ok r1 =>
        obtain ⟨cs', e2⟩ := r1
        simp only [hcs] at h
        have h1 := ih e1 e2 cs' hcs
        cases h
        simp [h1]

/-! ## Theorems -/

/-- C1: once every child of an S-expression has been evaluated, if some
evaluated child is an Error then `lval_eval` returns exactly the Error at the
smallest such index, whatever stands at later indices; the environment is the
one the evaluation of the children left. -/
theorem lval_eval_first_error_wins (fuel : Nat) (e e' : lenv) (cell cell' : List LVal)
    (i : Nat) (x : LVal)
    (hcells : eval_cells (lval_eval fuel) e cell = .ok (cell', e'))
    (hi : cell'[i]? = some x) (hx : x.type = .LVAL_ERR)
    (hmin : ∀ (j : Nat) (y : LVal), j < i → cell'[j]? = some y → y.type ≠ .LVAL_ERR) :
    lval_eval (fuel + 1) e (.sexpr cell) = .ok (x, e') := by
  have hfirst := first_err_of_index cell' i x hi hx hmin
  simp only [lval_eval, lval_eval_sexpr, hcells, hfirst]

/-- Witness of C1: `(+ 1 (/ 1 0) (unbound-sym))` in the builtin environment
returns the division-by-zero Error, not the unbound-symbol Error. -/
theorem lval_eval_first_error_wins_witness :
    eval_cells (lval_eval 2) builtin_env
        [.sym "+", .num 1, .sexpr [.sym "/", .num 1, .num 0], .sym "unbound-sym"]
      = .ok ([.fn .add, .num 1, .err "Division by zero!",
              .err "unbound symbol 'unbound-sym'"], builtin_env)
    ∧ lval_eval 3 builtin_env
        (.sexpr [.sym "+", .num 1, .sexpr [.sym "/", .num 1, .num 0], .sym "unbound-sym"])
      = .ok (.err "Division by zero!", builtin_env) :=
  ⟨rfl, lval_eval_first_error_wins 2 builtin_env builtin_env
    [.sym "+", .num 1, .sexpr [.sym "/", .num 1, .num 0], .sym "unbound-sym"]
    [.fn .add, .num 1, .err "Division by zero!", .err "unbound symbol 'unbound-sym'"]
    2 (.err "Division by zero!") rfl rfl rfl
    (by
      intro j y hj hy
      match j, hj with
      | 0, _ => simp at hy; subst hy; simp [LVal.type]
      | 1, _ => simp at hy; subst hy; simp [LVal.type])⟩

/-- C2, refuted as stated: in `(list (/ 1 0) (def {x} 5))` the child at index
1 evaluates to an Error, the environment after the children at indices 0 and
1 is still the builtin environment, yet `lval_eval` returns with `x` bound to
`5`: the `def` after the failing sibling was evaluated. -/
theorem error_suppresses_siblings_counterexample :
    eval_cells (lval_eval 2) builtin_env
        [.sym "list", .sexpr [.sym "/", .num 1, .num 0]]
      = .ok ([.fn .list, .err "Division by zero!"], builtin_env)
    ∧ lval_eval 3 builtin_env
        (.sexpr [.sym "list", .sexpr [.sym "/", .num 1, .num 0],
                 .sexpr [.sym "def", .qexpr [.sym "x"], .num 5]])
      = .ok (.err "Division by zero!", lenv_put builtin_env "x" (.num 5))
    ∧ lenv_put builtin_env "x" (.num 5) ≠ builtin_env
    ∧ lenv_get builtin_env "x" = .err "unbound symbol 'x'"
    ∧ lenv_get (lenv_put builtin_env "x" (.num 5)) "x" = .num 5 :=
  ⟨rfl, rfl, fun h => absurd (congrArg List.length h) (by decide), rfl, rfl⟩

/-- C2, amended: an Error does not stop the first loop of `lval_eval_sexpr`.
When the child at index `i` evaluates to an Error, the children after it are
still evaluated, in order, starting from the environment the children
`0..i` left: if one of them stops with a fault so does `lval_eval`, and
otherwise `lval_eval` returns an Error together with the environment left by
the last child. -/
theorem lval_eval_error_evaluates_all_children (fuel : Nat) (e e1 : lenv)
    (cell c1 : List LVal) (i : Nat) (x : LVal)
    (h1 : eval_cells (lval_eval fuel) e (cell.take (i + 1)) = .ok (c1, e1))
    (hi : c1[i]? = some x) (hx : x.type = .LVAL_ERR) :
    match eval_cells (lval_eval fuel) e1 (cell.drop (i + 1)) with
    | .error f => lval_eval (fuel + 1) e (.sexpr cell) = .error f
    | .ok (_, e2) =>
      ∃ y, y.type = .LVAL_ERR ∧ lval_eval (fuel + 1) e (.sexpr cell) = .ok (y, e2) := by
  have hsplit := eval_cells_append (lval_eval fuel) (cell.take (i + 1)) (cell.drop (i + 1)) e
  rw [List.take_append_drop, h1] at hsplit
  simp only [] at hsplit
  cases h2 : eval_cells (lval_eval fuel) e1 (cell.drop (i + 1)) with
  | error f =>
    rw [h2] at hsplit
    simp only [lval_eval, lval_eval_sexpr, hsplit]
  | ok r =>
    obtain ⟨c2, e2⟩ := r
    rw [h2] at hsplit
    simp only [] at hsplit
    have hne : first_err (c1 ++ c2) ≠ none := by
      intro hnone
      rw [first_err_none_iff] at hnone
      have hmem : x ∈ c1 := by
        rw [List.getElem?_eq_some] at hi
        obtain ⟨hlt, hget⟩ := hi
        rw [← hget]
        exact List.getElem_mem hlt
      exact hnone x (List.mem_append_left c2 hmem) hx
    cases hf : first_err (c1 ++ c2) with
    | none => exact absurd hf hne
    | some y =>
      refine ⟨y, first_err_type _ _ hf, ?_⟩
      simp only [lval_eval, lval_eval_sexpr, hsplit, hf]

/-- Witness of the amended C2 on `(list (/ 1 0) (def {x} 5))`. -/
theorem lval_eval_error_evaluates_all_children_witness :
    eval_cells (lval_eval 2) builtin_env
        (List.take (1 + 1) [.sym "list", .sexpr [.sym "/", .num 1, .num 0],
                 .sexpr [.sym "def", .qexpr [.sym "x"], .num 5]])
      = .ok ([.fn .list, .err "Division by zero!"], builtin_env)
    ∧ match eval_cells (lval_eval 2) builtin_env
        (List.drop (1 + 1) [.sym "list", .sexpr [.sym "/", .num 1, .num 0],
                 .sexpr [.sym "def", .qexpr [.sym "x"], .num 5]]) with
      | .error f => lval_eval (2 + 1) builtin_env
          (.sexpr [.sym "list", .sexpr [.sym "/", .num 1, .num 0],
                 .sexpr [.sym "def", .qexpr [.sym "x"], .num 5]]) = .error f
      | .ok (_, e2) => ∃ y, y.type = .LVAL_ERR ∧ lval_eval (2 + 1) builtin_env
          (.sexpr [.sym "list", .sexpr [.sym "/", .num 1, .num 0],
                 .sexpr [.sym "def", .qexpr [.sym "x"], .num 5]]) = .ok (y, e2) :=
  ⟨rfl, lval_eval_error_evaluates_all_children 2 builtin_env builtin_env
    [.sym "list", .sexpr [.sym "/", .num 1, .num 0],
      .sexpr [.sym "def", .qexpr [.sym "x"], .num 5]]
    [.fn .list, .err "Division by zero!"] 1 (.err "Division by zero!") rfl rfl rfl⟩

/-- C3: a Number, an Error, a Q-expression (whatever its children) and a
Function evaluate to themselves and leave the environment as it was; so
`{+ 1 2}` evaluates to `{+ 1 2}`, while `(+ 1 2)` in the builtin environment
evaluates to `3`.  An Error whose message is cut evaluates to itself
too. -/
theorem lval_eval_normal_form_unchanged :
    (∀ (fuel : Nat) (e : lenv) (n : Int),
      lval_eval (fuel + 1) e (.num n) = .ok (.num n, e))
    ∧ (∀ (fuel : Nat) (e : lenv) (msg : String),
      lval_eval (fuel + 1) e (.err msg) = .ok (.err msg, e))
    ∧ (∀ (fuel : Nat) (e : lenv) (cell : List LVal),
      lval_eval (fuel + 1) e (.qexpr cell) = .ok (.qexpr cell, e))
    ∧ (∀ (fuel : Nat) (e : lenv) (f : LBuiltin),
      lval_eval (fuel + 1) e (.fn f) = .ok (.fn f, e))
    ∧ lval_eval 1 builtin_env (.qexpr [.sym "+", .num 1, .num 2])
        = .ok (.qexpr [.sym "+", .num 1, .num 2], builtin_env)
    ∧ lval_eval 2 builtin_env (.sexpr [.sym "+", .num 1, .num 2])
        = .ok (.num 3, builtin_env)
    ∧ (∀ (fuel : Nat) (e : lenv) (kept : String),
      lval_eval (fuel + 1) e (.err_cut kept) = .ok (.err_cut kept, e)) :=
  ⟨fun _ _ _ => rfl, fun _ _ _ => rfl, fun _ _ _ => rfl, fun _ _ _ => rfl, rfl, rfl,
   fun _ _ _ => rfl⟩

theorem lenv_get_eq_lookup (s : String) :
    ∀ e : lenv, lenv_get e s =
      match List.lookup s e with
      | some v => lval_copy v
      | none => lval_err ("unbound symbol '" ++ s ++ "'") := by
  intro e
  induction e with
  | nil => rfl
  | cons p rest ih =>
    obtain ⟨k, v⟩ := p
    by_cases h : k = s
    · subst h
      simp [lenv_get, List.lookup_cons]
    · have h' : (s == k) = false := by
        simp only [beq_eq_false_iff_ne, ne_eq]
        exact fun h1 => h h1.symm
      simp only [lenv_get, List.lookup_cons, h, h', if_false]
      exact ih

theorem lval_err_long (msg : String) (hlen : 510 ≤ msg.data.length) :
    lval_err msg = .err (String.mk (msg.data.take 510)) := by
  have h : (String.mk (msg.data.take 510)).data.length = 510 := by
    show (msg.data.take 510).length = 510
    rw [List.length_take]; omega
  have hfit := (lval_err_size_iff (String.mk (msg.data.take 510)) (by rw [h])).mpr
    (Or.inr (Or.inl (by rw [h]; decide)))
  simp only [lval_err, hfit, if_true]

theorem unbound_message_length (s : String) :
    ("unbound symbol '" ++ s ++ "'").data.length = s.length + 17 := by
  simp only [String.data_append, List.length_append, String.length]
  have h16 : ("unbound symbol '").data.length = 16 := by decide
  have h1 : ("'").data.length = 1 := by decide
  rw [h16, h1]; omega

/-- C4, refuted as stated: for the unbound name made of 494 letters `a` the
message returned is not `unbound symbol '<name>'`; `lval_err` kept its first
510 characters, which end before the closing quote. -/
theorem unbound_symbol_message_counterexample :
    lval_eval 1 lenv_new (.sym (String.mk (List.replicate 494 'a')))
      ≠ .ok (.err ("unbound symbol '" ++ String.mk (List.replicate 494 'a') ++ "'"), lenv_new)
    ∧ lval_eval 1 lenv_new (.sym (String.mk (List.replicate 494 'a')))
      = .ok (.err ("unbound symbol '" ++ String.mk (List.replicate 494 'a')), lenv_new) := by
  have hname : (String.mk (List.replicate 494 'a')).length = 494 := by
    show (List.replicate 494 'a').length = 494
    rw [List.length_replicate]
  have hfull : ("unbound symbol '" ++ String.mk (List.replicate 494 'a') ++ "'").data.length
      = 511 := by
    rw [unbound_message_length, hname]
  have heval : lval_eval 1 lenv_new (.sym (String.mk (List.replicate 494 'a')))
      = .ok (.err (String.mk (("unbound symbol '" ++ String.mk (List.replicate 494 'a')
          ++ "'").data.take 510)), lenv_new) := by
    simp only [lval_eval, lenv_get, lenv_new]
    rw [lval_err_long _ (by rw [hfull]; decide)]
  constructor
  · intro h
    rw [heval] at h
    injection h with h
    injection h with h _
    injection h with h
    have hlen := congrArg String.length h
    rw [String.length_mk, List.length_take, hfull] at hlen
    have hfull2 : ("unbound symbol '" ++ String.mk (List.replicate 494 'a') ++ "'").length
        = 511 := hfull
    rw [hfull2] at hlen
    omega
  · rw [heval]
    have hlen : ("unbound symbol '" ++ String.mk (List.replicate 494 'a')).data.length
        = 510 := by
      simp only [String.data_append, List.length_append, List.length_replicate]
      have h16 : ("unbound symbol '").data.length = 16 := by decide
      rw [h16]
    have htake : (("unbound symbol '" ++ String.mk (List.replicate 494 'a') ++ "'").data.take 510)
        = ("unbound symbol '" ++ String.mk (List.replicate 494 'a')).data := by
      rw [String.data_append, ← hlen, List.take_left']
      rfl
    rw [htake]

/-- C4, amended: evaluating `Symbol s` leaves the environment as it was.
When an entry is named `s` it returns the `lval_copy` of the value of the
first such entry, which is that value whenever `lval_copy` has room for every
string in it.  When no entry is named `s` it returns the Error `lval_err`
makes of `unbound symbol '<s>'`: its message is the first 510 characters of
that text when `s` has 494 characters or more, and the whole text when `s`
has at most 493 characters and the text fits the block `lval_err` keeps (its
length `s.length + 17` is below 24, or 490 at least, or neither 8 nor 9
modulo 16). -/
theorem lval_eval_symbol (fuel : Nat) (e : lenv) (s : String) :
    (∀ v : LVal, List.lookup s e = some v →
        lval_eval (fuel + 1) e (.sym s) = .ok (lval_copy v, e)
        ∧ (lval_fits v = true → lval_eval (fuel + 1) e (.sym s) = .ok (v, e)))
    ∧ (List.lookup s e = none →
        lval_eval (fuel + 1) e (.sym s) = .ok (lval_err ("unbound symbol '" ++ s ++ "'"), e)
        ∧ (lval_err ("unbound symbol '" ++ s ++ "'")).type = .LVAL_ERR
        ∧ (494 ≤ s.length →
            lval_eval (fuel + 1) e (.sym s)
              = .ok (.err (String.mk (("unbound symbol '" ++ s ++ "'").data.take 510)), e))
        ∧ (s.length ≤ 493 →
            (s.length + 17 < 24 ∨ 490 ≤ s.length + 17
              ∨ ((s.length + 17) % 16 ≠ 8 ∧ (s.length + 17) % 16 ≠ 9)) →
            lval_eval (fuel + 1) e (.sym s) = .ok (.err ("unbound symbol '" ++ s ++ "'"), e))) := by
  refine ⟨?_, ?_⟩
  · intro v hv
    have h1 : lval_eval (fuel + 1) e (.sym s) = .ok (lval_copy v, e) := by
      simp only [lval_eval, lenv_get_eq_lookup, hv]
    refine ⟨h1, ?_⟩
    intro hfit
    rw [h1, lval_copy_id v hfit]
  · intro hnone
    have hgen : lval_eval (fuel + 1) e (.sym s)
        = .ok (lval_err ("unbound symbol '" ++ s ++ "'"), e) := by
      simp only [lval_eval, lenv_get_eq_lookup, hnone]
    refine ⟨hgen, lval_err_type _, ?_, ?_⟩
    · intro hlen
      rw [hgen, lval_err_long]
      rw [unbound_message_length]
      omega
    · intro hlen hmod
      rw [hgen, lval_err_whole]
      · rw [unbound_message_length]
        omega
      · rw [unbound_message_length]
        exact hmod

/-- Witness of the amended C4: `+` is bound in the builtin environment, `x`
is not. -/
theorem lval_eval_symbol_witness :
    lval_eval 1 builtin_env (.sym "+") = .ok (.fn .add, builtin_env)
    ∧ lval_eval 1 builtin_env (.sym "x") = .ok (.err "unbound symbol 'x'", builtin_env) :=
  ⟨((lval_eval_symbol 0 builtin_env "+").1 (.fn .add) rfl).2 rfl,
   ((lval_eval_symbol 0 builtin_env "x").2 rfl).2.2.2 (by decide) (by decide)⟩

theorem eval_cells_nth (ev : lenv → LVal → Res) (cell : List LVal) :
    ∀ (e e' : lenv) (cell' : List LVal), eval_cells ev e cell = .ok (cell', e') →
      ∀ (i : Nat) (c : LVal), cell[i]? = some c →
        ∃ (before : List LVal) (ei : lenv) (c' : LVal) (ei' : lenv),
          eval_cells ev e (cell.take i) = .ok (before, ei)
          ∧ ev ei c = .ok (c', ei')
          ∧ cell'[i]? = some c'
          ∧ eval_cells ev e (cell.take (i + 1)) = .ok (before ++ [c'], ei') := by
  induction cell with
  | nil => intro e e' cell' _ i c hc; simp at hc
  | cons c0 cs ih =>
    intro e e' cell' h i c hc
    simp only [eval_cells] at h
    cases h0 : ev e c0 with
    | error f => simp [h0] at h
    | ok r =>
      obtain ⟨c0', e1⟩ := r
      simp only [h0] at h
      cases hcs : eval_cells ev e1 cs with
      | error f => simp [hcs] at h
      | ok r1 =>
        obtain ⟨cs', e2⟩ := r1
        simp only [hcs] at h
        cases h
        cases i with
        | zero =>
          simp at hc
          subst hc
          exact ⟨[], e, c0', e1, rfl, h0, by simp, by simp [eval_cells, h0]⟩
        | succ i =>
          have hc' : cs[i]? = some c := by simpa using hc
          obtain ⟨before, ei, c', ei', hb, hev, hget, hnext⟩ := ih e1 _ cs' hcs i c hc'
          refine ⟨c0' :: before, ei, c', ei', ?_, hev, by simpa using hget, ?_⟩
          · simp [eval_cells, h0, hb]
          · simp [eval_cells, h0, hnext]

/-- C5: the children of an S-expression are evaluated left to right with the
environment threaded through: the value at index `i` of the evaluated list
is the value of child `i` in the environment left by the children before it.
When the evaluated first child is a Function, there are at least two children
and no evaluated child is an Error, the result is that function called with
the evaluated remaining children, in their order, in the environment the
children left. -/
theorem lval_eval_sexpr_left_to_right (fuel : Nat) (e e' : lenv) (cell cell' : List LVal)
    (hcells : eval_cells (lval_eval fuel) e cell = .ok (cell', e')) :
    (∀ (i : Nat) (c : LVal), cell[i]? = some c →
        ∃ (before : List LVal) (ei : lenv) (c' : LVal) (ei' : lenv),
          eval_cells (lval_eval fuel) e (cell.take i) = .ok (before, ei)
          ∧ lval_eval fuel ei c = .ok (c', ei')
          ∧ cell'[i]? = some c'
          ∧ eval_cells (lval_eval fuel) e (cell.take (i + 1)) = .ok (before ++ [c'], ei'))
    ∧ (∀ (f : LBuiltin) (args : List LVal), cell' = .fn f :: args → args ≠ [] →
        (∀ x ∈ args, x.type ≠ .LVAL_ERR) →
        lval_eval (fuel + 1) e (.sexpr cell) = lval_call (lval_eval fuel) f e' args) := by
  refine ⟨eval_cells_nth (lval_eval fuel) cell e e' cell' hcells, ?_⟩
  intro f args hcell' hargs hnoerr
  subst hcell'
  have hfirst : first_err (.fn f :: args) = none := by
    rw [first_err_none_iff]
    intro x hx
    rcases List.mem_cons.mp hx with h | h
    · subst h; simp [LVal.type]
    · exact hnoerr x h
  cases args with
  | nil => exact absurd rfl hargs
  | cons a rest =>
    simp only [lval_eval, lval_eval_sexpr, hcells, hfirst]

/-- Witness of C5: in `(list (def {x} 5) x)` the `def` of the second child is
seen by the third, and `list` receives the evaluated children in order: the
result is `{() 5}`. -/
theorem lval_eval_sexpr_left_to_right_witness :
    eval_cells (lval_eval 2) builtin_env
        [.sym "list", .sexpr [.sym "def", .qexpr [.sym "x"], .num 5], .sym "x"]
      = .ok ([.fn .list, .sexpr [], .num 5], lenv_put builtin_env "x" (.num 5))
    ∧ (∃ (before : List LVal) (ei : lenv) (c' : LVal) (ei' : lenv),
        eval_cells (lval_eval 2) builtin_env
          (List.take 2 [.sym "list", .sexpr [.sym "def", .qexpr [.sym "x"], .num 5], .sym "x"])
          = .ok (before, ei)
        ∧ lval_eval 2 ei (.sym "x") = .ok (c', ei')
        ∧ [LVal.fn .list, .sexpr [], .num 5][2]? = some c'
        ∧ eval_cells (lval_eval 2) builtin_env
          (List.take (2 + 1)
            [.sym "list", .sexpr [.sym "def", .qexpr [.sym "x"], .num 5], .sym "x"])
          = .ok (before ++ [c'], ei'))
    ∧ lval_eval 3 builtin_env
        (.sexpr [.sym "list", .sexpr [.sym "def", .qexpr [.sym "x"], .num 5], .sym "x"])
      = .ok (.qexpr [.sexpr [], .num 5], lenv_put builtin_env "x" (.num 5)) :=
  ⟨rfl,
   (lval_eval_sexpr_left_to_right 2 builtin_env (lenv_put builtin_env "x" (.num 5))
      [.sym "list", .sexpr [.sym "def", .qexpr [.sym "x"], .num 5], .sym "x"]
      [.fn .list, .sexpr [], .num 5] rfl).1 2 (.sym "x") rfl,
   (lval_eval_sexpr_left_to_right 2 builtin_env (lenv_put builtin_env "x" (.num 5))
      [.sym "list", .sexpr [.sym "def", .qexpr [.sym "x"], .num 5], .sym "x"]
      [.fn .list, .sexpr [], .num 5] rfl).2 .list [.sexpr [], .num 5] rfl
      (by simp) (by simp [LVal.type])⟩

/-- C6: the empty S-expression evaluates to itself, and `(x)` evaluates to
what `x` evaluates to, value, environment and fault alike, one call deeper; so
`(+)` returns the Function bound to `+` without calling it. -/
theorem lval_eval_empty_and_singleton :
    (∀ (fuel : Nat) (e : lenv), lval_eval (fuel + 1) e (.sexpr []) = .ok (.sexpr [], e))
    ∧ (∀ (fuel : Nat) (e : lenv) (x : LVal),
        lval_eval (fuel + 1) e (.sexpr [x]) = lval_eval fuel e x)
    ∧ lval_eval 2 builtin_env (.sexpr [.sym "+"]) = .ok (.fn .add, builtin_env) := by
  refine ⟨fun _ _ => rfl, ?_, rfl⟩
  intro fuel e x
  simp only [lval_eval, lval_eval_sexpr, eval_cells]
  cases h : lval_eval fuel e x with
  | error f => rfl
  | ok r =>
    obtain ⟨x', e'⟩ := r
    by_cases hx : x'.type = .LVAL_ERR
    · simp [first_err, hx]
    · simp [first_err, hx]

/-- C7: when the evaluated children of an S-expression are at least two, none
of them an Error, and the first is not a Function, `lval_eval` returns the
Error `S-expression does not start with a function!`. -/
theorem lval_eval_sexpr_not_function (fuel : Nat) (e e' : lenv) (cell : List LVal)
    (f : LVal) (args : List LVal)
    (hcells : eval_cells (lval_eval fuel) e cell = .ok (f :: args, e'))
    (hargs : args ≠ [])
    (hnoerr : ∀ x ∈ f :: args, x.type ≠ .LVAL_ERR)
    (hf : f.type ≠ .LVAL_FUN) :
    lval_eval (fuel + 1) e (.sexpr cell)
      = .ok (.err "S-expression does not start with a function!", e') := by
  have hfirst : first_err (f :: args) = none := (first_err_none_iff _).mpr hnoerr
  have hmsg : lval_err "S-expression does not start with a function!"
      = .err "S-expression does not start with a function!" := rfl
  cases args with
  | nil => exact absurd rfl hargs
  | cons a rest =>
    cases f with
    | fn b => simp [LVal.type] at hf
    | num n => simp only [lval_eval, lval_eval_sexpr, hcells, hfirst, hmsg]
    | err m => simp only [lval_eval, lval_eval_sexpr, hcells, hfirst, hmsg]
    | sym s => simp only [lval_eval, lval_eval_sexpr, hcells, hfirst, hmsg]
    | sexpr c => simp only [lval_eval, lval_eval_sexpr, hcells, hfirst, hmsg]
    | qexpr c => simp only [lval_eval, lval_eval_sexpr, hcells, hfirst, hmsg]
    | err_cut m => simp only [lval_eval, lval_eval_sexpr, hcells, hfirst, hmsg]
    | sym_cut s => simp only [lval_eval, lval_eval_sexpr, hcells, hfirst, hmsg]

/-- Witness of C7 on `(1 2)` and `({+} 1 2)`. -/
theorem lval_eval_sexpr_not_function_witness :
    lval_eval 2 builtin_env (.sexpr [.num 1, .num 2])
      = .ok (.err "S-expression does not start with a function!", builtin_env)
    ∧ lval_eval 2 builtin_env (.sexpr [.qexpr [.sym "+"], .num 1, .num 2])
      = .ok (.err "S-expression does not start with a function!", builtin_env) :=
  ⟨lval_eval_sexpr_not_function 1 builtin_env builtin_env [.num 1, .num 2]
      (.num 1) [.num 2] rfl (by simp) (by simp [LVal.type]) (by simp [LVal.type]),
   lval_eval_sexpr_not_function 1 builtin_env builtin_env
      [.qexpr [.sym "+"], .num 1, .num 2]
      (.qexpr [.sym "+"]) [.num 1, .num 2] rfl (by simp) (by simp [LVal.type])
      (by simp [LVal.type])⟩

theorem wrapLong_of_inLong (z : Int) (h : inLong z) : wrapLong z = z := by
  unfold inLong LONG_MIN LONG_MAX at h
  unfold wrapLong LONG_MIN
  omega

theorem any_not_num_map (ns : List Int) :
    (ns.map LVal.num).any (fun c => decide (c.type ≠ .LVAL_NUM)) = false := by
  induction ns with
  | nil => rfl
  | cons n rest ih => simp [List.any_cons, LVal.type]

theorem builtin_op_numbers (e : lenv) (op : String) (n0 : Int) (ns : List Int) :
    builtin_op e (.num n0 :: ns.map LVal.num) op =
      match op_loop op (if op = "-" ∧ ns.length = 0 then wrapLong (-n0) else n0)
          (ns.map LVal.num) with
      | .ok r => .ok (r, e)
      | .error f => .error f := by
  have hany : (LVal.num n0 :: ns.map LVal.num).any (fun c => decide (c.type ≠ .LVAL_NUM))
      = false := any_not_num_map (n0 :: ns)
  simp only [builtin_op, hany, List.length_map]
  rfl

theorem op_loop_fold (op : String) (g : Int → Int → Int)
    (hstep : ∀ (x y : Int) (rest : List LVal),
      op_loop op x (.num y :: rest) = op_loop op (wrapLong (g x y)) rest) :
    ∀ (ns : List Int) (x : Int),
      (∀ k : Nat, k ≤ ns.length → inLong (List.foldl g x (ns.take k))) →
      op_loop op x (ns.map LVal.num) = .ok (.num (List.foldl g x ns)) := by
  intro ns
  induction ns with
  | nil => intro x _; simp [op_loop]
  | cons y rest ih =>
    intro x h
    have h1 : inLong (g x y) := by
      have := h 1 (by simp)
      simpa using this
    rw [List.map_cons, hstep, wrapLong_of_inLong _ h1, List.foldl_cons]
    apply ih
    intro k hk
    have := h (k + 1) (by simpa using hk)
    simpa using this

/-- C8: on a list of at least two Numbers `n0, n1, ..., nk`, `builtin_add`
returns their sum, `builtin_mul` their product and `builtin_sub`
`n0 - n1 - ... - nk`, folded from the left, whenever no intermediate result
of the fold leaves the range of `long`; the environment is left as it was. -/
theorem builtin_arith_left_fold (e : lenv) (n0 : Int) (ns : List Int) (hns : ns ≠ []) :
    ((∀ k : Nat, k ≤ ns.length → inLong (List.foldl (fun x y => x + y) n0 (ns.take k))) →
      builtin_add e (.num n0 :: ns.map LVal.num)
        = .ok (.num (List.foldl (fun x y => x + y) n0 ns), e))
    ∧ ((∀ k : Nat, k ≤ ns.length → inLong (List.foldl (fun x y => x * y) n0 (ns.take k))) →
      builtin_mul e (.num n0 :: ns.map LVal.num)
        = .ok (.num (List.foldl (fun x y => x * y) n0 ns), e))
    ∧ ((∀ k : Nat, k ≤ ns.length → inLong (List.foldl (fun x y => x - y) n0 (ns.take k))) →
      builtin_sub e (.num n0 :: ns.map LVal.num)
        = .ok (.num (List.foldl (fun x y => x - y) n0 ns), e)) := by
  have hlen : ns.length ≠ 0 := fun h => hns (List.length_eq_zero.mp h)
  refine ⟨?_, ?_, ?_⟩
  · intro h
    have hfold := op_loop_fold "+" (fun x y => x + y)
      (by intro x y rest; rw [op_loop]; simp) ns n0 h
    rw [builtin_add, builtin_op_numbers]
    simp only [hlen, and_false, if_false, hfold]
  · intro h
    have hfold := op_loop_fold "*" (fun x y => x * y)
      (by intro x y rest; rw [op_loop]; simp) ns n0 h
    rw [builtin_mul, builtin_op_numbers]
    simp only [hlen, and_false, if_false, hfold]
  · intro h
    have hfold := op_loop_fold "-" (fun x y => x - y)
      (by intro x y rest; rw [op_loop]; simp) ns n0 h
    rw [builtin_sub, builtin_op_numbers]
    simp only [hlen, and_false, if_false, hfold]

/-- Witness of C8: `(+ 1 2 3)` is `6`, `(* 2 2)` is `4` (the call `(* 2 (+ 1 1))`
makes once `(+ 1 1)` is evaluated) and `(- 10 2 3)` is `5`. -/
theorem builtin_arith_left_fold_witness :
    builtin_add builtin_env [.num 1, .num 2, .num 3] = .ok (.num 6, builtin_env)
    ∧ builtin_mul builtin_env [.num 2, .num 2] = .ok (.num 4, builtin_env)
    ∧ builtin_sub builtin_env [.num 10, .num 2, .num 3] = .ok (.num 5, builtin_env)
    ∧ lval_eval 3 builtin_env (.sexpr [.sym "*", .num 2, .sexpr [.sym "+", .num 1, .num 1]])
        = .ok (.num 4, builtin_env) :=
  ⟨(builtin_arith_left_fold builtin_env 1 [2, 3] (by simp)).1
      (by intro k hk; have hk2 : k ≤ 2 := hk; interval_cases k <;> decide),
   (builtin_arith_left_fold builtin_env 2 [2] (by simp)).2.1
      (by intro k hk; have hk1 : k ≤ 1 := hk; interval_cases k <;> decide),
   (builtin_arith_left_fold builtin_env 10 [2, 3] (by simp)).2.2
      (by intro k hk; have hk2 : k ≤ 2 := hk; interval_cases k <;> decide),
   rfl⟩

/-- C9, refuted as stated: `builtin_sub` applied to the single Number
`LONG_MIN` returns `LONG_MIN` itself, not its negation, which no `long`
holds. -/
theorem builtin_sub_negation_counterexample :
    builtin_sub lenv_new [.num LONG_MIN] = .ok (.num LONG_MIN, lenv_new)
    ∧ builtin_sub lenv_new [.num LONG_MIN] ≠ .ok (.num (-LONG_MIN), lenv_new)
    ∧ inLong LONG_MIN ∧ ¬ inLong (-LONG_MIN) := by
  have h : builtin_sub lenv_new [.num LONG_MIN] = .ok (.num LONG_MIN, lenv_new) := rfl
  refine ⟨h, ?_, by decide, by decide⟩
  rw [h]
  intro heq
  injection heq with heq
  injection heq with heq _
  injection heq with heq
  exact absurd heq (by decide)

/-- C9, amended: for every Number `n` of the `long` range other than
`LONG_MIN`, `builtin_sub` applied to the one-element list `[n]` returns
`Number (-n)`; `builtin_add`, `builtin_mul` and `builtin_div` applied to `[n]`
return `Number n` unchanged. -/
theorem builtin_op_single_argument (e : lenv) (n : Int) :
    (inLong n → n ≠ LONG_MIN → builtin_sub e [.num n] = .ok (.num (-n), e))
    ∧ builtin_add e [.num n] = .ok (.num n, e)
    ∧ builtin_mul e [.num n] = .ok (.num n, e)
    ∧ builtin_div e [.num n] = .ok (.num n, e) := by
  refine ⟨?_, ?_, ?_, ?_⟩
  · intro hn hmin
    have hneg : inLong (-n) := by
      unfold inLong LONG_MIN LONG_MAX at *
      omega
    have h := builtin_op_numbers e "-" n []
    simp only [List.map_nil, List.length_nil, and_self, if_true, op_loop,
      wrapLong_of_inLong _ hneg] at h
    exact h
  · have h := builtin_op_numbers e "+" n []
    have hop : ¬ ("+" = "-") := by decide
    simp only [List.map_nil, hop, false_and, if_false, op_loop] at h
    exact h
  · have h := builtin_op_numbers e "*" n []
    have hop : ¬ ("*" = "-") := by decide
    simp only [List.map_nil, hop, false_and, if_false, op_loop] at h
    exact h
  · have h := builtin_op_numbers e "/" n []
    have hop : ¬ ("/" = "-") := by decide
    simp only [List.map_nil, hop, false_and, if_false, op_loop] at h
    exact h

/-- Witness of the amended C9: `(- 5)` is `-5`. -/
theorem builtin_op_single_argument_witness :
    builtin_sub builtin_env [.num 5] = .ok (.num (-5), builtin_env) :=
  (builtin_op_single_argument builtin_env 5).1 (by decide) (by decide)

theorem tdiv_inLong (x y : Int) (hx : inLong x) (hy : y ≠ 0)
    (hov : ¬ (x = LONG_MIN ∧ y = -1)) :
    inLong (Int.tdiv x y) ∧ (Int.tdiv x y = LONG_MIN → x = LONG_MIN ∧ y = 1) := by
  unfold inLong LONG_MIN LONG_MAX at *
  have habs : (Int.tdiv x y).natAbs = x.natAbs / y.natAbs := Int.natAbs_tdiv x y
  by_cases h1 : y = 1
  · subst h1
    rw [Int.tdiv_one]
    exact ⟨hx, fun h => ⟨h, rfl⟩⟩
  · by_cases hm1 : y = -1
    · subst hm1
      have hneg : Int.tdiv x (-1) = -x := by
        rw [Int.tdiv_neg, Int.tdiv_one]
      rw [hneg]
      constructor
      · omega
      · intro h; omega
    · have hy2 : 2 ≤ y.natAbs := by omega
      have hle : x.natAbs / y.natAbs ≤ x.natAbs / 2 :=
        Nat.div_le_div_left hy2 (by decide)
      have hx2 : x.natAbs / 2 ≤ 4611686018427387904 := by omega
      constructor
      · omega
      · intro h; omega

theorem op_loop_div_step (x y : Int) (rest : List LVal) :
    op_loop "/" x (.num y :: rest) =
      if y = 0 then .ok (lval_err "Division by zero!")
      else if x = LONG_MIN ∧ y = -1 then .error .undefined
      else op_loop "/" (Int.tdiv x y) rest := by
  rw [op_loop]
  simp

theorem op_loop_div_defined (ns : List Int) :
    ∀ x : Int, inLong x →
      ¬ (x = LONG_MIN ∧ (ns.dropWhile (fun n => decide (n = 1))).head? = some (-1)) →
      (0 ∈ ns → op_loop "/" x (ns.map LVal.num) = .ok (lval_err "Division by zero!"))
      ∧ (0 ∉ ns → ∃ q : Int, inLong q ∧ op_loop "/" x (ns.map LVal.num) = .ok (.num q)) := by
  induction ns with
  | nil =>
    intro x hx _
    exact ⟨fun h => absurd h (List.not_mem_nil 0), fun _ => ⟨x, hx, by simp [op_loop]⟩⟩
  | cons y rest ih =>
    intro x hx hov
    rw [List.map_cons, op_loop_div_step]
    by_cases hy : y = 0
    · subst hy
      simp
    · have hnov : ¬ (x = LONG_MIN ∧ y = -1) := by
        rintro ⟨hxm, hym⟩
        apply hov
        refine ⟨hxm, ?_⟩
        subst hym
        simp [List.dropWhile_cons]
      obtain ⟨hq, hqmin⟩ := tdiv_inLong x y hx hy hnov
      have hov' : ¬ (Int.tdiv x y = LONG_MIN
          ∧ (rest.dropWhile (fun n => decide (n = 1))).head? = some (-1)) := by
        rintro ⟨hqm, hhead⟩
        obtain ⟨hxm, hy1⟩ := hqmin hqm
        apply hov
        refine ⟨hxm, ?_⟩
        subst hy1
        simpa [List.dropWhile_cons] using hhead
      obtain ⟨ihz, ihnz⟩ := ih (Int.tdiv x y) hq hov'
      have hmem : (0 : Int) ∈ y :: rest ↔ (0 : Int) ∈ rest := by
        constructor
        · intro h
          rcases List.mem_cons.mp h with h | h
          · exact absurd h.symm hy
          · exact h
        · exact List.mem_cons_of_mem y
      simp only [hy, hnov, if_false, hmem]
      exact ⟨ihz, ihnz⟩

theorem op_loop_div_overflow (ns : List Int) :
    (ns.dropWhile (fun n => decide (n = 1))).head? = some (-1) →
      op_loop "/" LONG_MIN (ns.map LVal.num) = .error .undefined := by
  induction ns with
  | nil => intro h; simp at h
  | cons y rest ih =>
    intro h
    rw [List.map_cons, op_loop_div_step]
    by_cases h1 : y = 1
    · subst h1
      have hrest : (rest.dropWhile (fun n => decide (n = 1))).head? = some (-1) := by
        simpa [List.dropWhile_cons] using h
      have hone : ¬ ((1 : Int) = 0) := by decide
      have hnot : ¬ (LONG_MIN = LONG_MIN ∧ (1 : Int) = -1) := by decide
      simp only [hone, hnot, if_false, Int.tdiv_one]
      exact ih hrest
    · have hy : y = -1 := by
        simpa [List.dropWhile_cons, h1] using h
      subst hy
      simp

/-- C10, refuted as stated: `builtin_div` applied to `[LONG_MIN, -1]` does
not return: the quotient does not fit in a `long` and the division faults.
The same happens on `[LONG_MIN, -1, 0]`, where an argument after the first
is `0` and yet no Error is returned. -/
theorem builtin_div_never_traps_counterexample :
    builtin_div lenv_new [.num LONG_MIN, .num (-1)] = .error .undefined
    ∧ builtin_div lenv_new [.num LONG_MIN, .num (-1), .num 0] = .error .undefined
    ∧ inLong LONG_MIN ∧ inLong (-1) ∧ ¬ inLong (Int.tdiv LONG_MIN (-1)) :=
  ⟨rfl, rfl, by decide, by decide, by decide⟩

/-- C10, amended: take Numbers `n0, n1, ..., nk` (`k ≥ 0`) with `n0` in the
range of `long`.  If `n0` is `LONG_MIN` and the first of `n1..nk` that is not
`1` is `-1`, the loop of `builtin_div` reaches `LONG_MIN / -1` and faults.
On every other list `builtin_div` returns, and what it returns is the Error
`Division by zero!` if and only if one of `n1..nk` is `0`, a Number
otherwise; `n0` being `0` plays no part. -/
theorem builtin_div_error_iff (e : lenv) (n0 : Int) (ns : List Int) (h0 : inLong n0) :
    ((n0 = LONG_MIN ∧ (ns.dropWhile (fun n => decide (n = 1))).head? = some (-1)) →
      builtin_div e (.num n0 :: ns.map LVal.num) = .error .undefined)
    ∧ (¬ (n0 = LONG_MIN ∧ (ns.dropWhile (fun n => decide (n = 1))).head? = some (-1)) →
      ∃ v : LVal, builtin_div e (.num n0 :: ns.map LVal.num) = .ok (v, e)
        ∧ (v = .err "Division by zero!" ↔ (0 : Int) ∈ ns)
        ∧ (v.type = .LVAL_ERR ↔ (0 : Int) ∈ ns)
        ∧ ((0 : Int) ∉ ns → ∃ q : Int, v = .num q)) := by
  have hop : ¬ ("/" = "-") := by decide
  have hcall := builtin_op_numbers e "/" n0 ns
  simp only [hop, false_and, if_false] at hcall
  have hmsg : lval_err "Division by zero!" = .err "Division by zero!" := rfl
  constructor
  · rintro ⟨hmin, hhead⟩
    subst hmin
    rw [builtin_div, hcall, op_loop_div_overflow ns hhead]
  · intro hov
    obtain ⟨hz, hnz⟩ := op_loop_div_defined ns n0 h0 hov
    by_cases hmem : (0 : Int) ∈ ns
    · refine ⟨.err "Division by zero!", ?_, ?_, ?_, ?_⟩
      · rw [builtin_div, hcall, hz hmem, hmsg]
      · simp [hmem]
      · simp [hmem, LVal.type]
      · intro h; exact absurd hmem h
    · obtain ⟨q, _, hq⟩ := hnz hmem
      refine ⟨.num q, ?_, ?_, ?_, ?_⟩
      · rw [builtin_div, hcall, hq]
      · simp [hmem]
      · simp [hmem, LVal.type]
      · intro _; exact ⟨q, rfl⟩

/-- Witness of the amended C10: `(/ 4 0)` is the division-by-zero Error,
`(/ 0 5)` is `0`, and `LONG_MIN / 1 / -1` faults. -/
theorem builtin_div_error_iff_witness :
    builtin_div builtin_env [.num LONG_MIN, .num 1, .num (-1)] = .error .undefined
    ∧ (∃ v : LVal, builtin_div builtin_env [.num 4, .num 0] = .ok (v, builtin_env)
        ∧ (v = .err "Division by zero!" ↔ (0 : Int) ∈ [(0 : Int)])
        ∧ (v.type = .LVAL_ERR ↔ (0 : Int) ∈ [(0 : Int)])
        ∧ ((0 : Int) ∉ [(0 : Int)] → ∃ q : Int, v = .num q))
    ∧ (∃ v : LVal, builtin_div builtin_env [.num 0, .num 5] = .ok (v, builtin_env)
        ∧ (v = .err "Division by zero!" ↔ (0 : Int) ∈ [(5 : Int)])
        ∧ (v.type = .LVAL_ERR ↔ (0 : Int) ∈ [(5 : Int)])
        ∧ ((0 : Int) ∉ [(5 : Int)] → ∃ q : Int, v = .num q)) :=
  ⟨(builtin_div_error_iff builtin_env LONG_MIN [1, -1] (by decide)).1 ⟨rfl, by decide⟩,
   (builtin_div_error_iff builtin_env 4 [0] (by decide)).2 (by decide),
   (builtin_div_error_iff builtin_env 0 [5] (by decide)).2 (by decide)⟩

theorem op_loop_div_fold (ns : List Int) :
    ∀ x : Int, inLong x →
      ¬ (x = LONG_MIN ∧ (ns.dropWhile (fun n => decide (n = 1))).head? = some (-1)) →
      (∀ n ∈ ns, n ≠ 0) →
      op_loop "/" x (ns.map LVal.num) = .ok (.num (List.foldl Int.tdiv x ns)) := by
  induction ns with
  | nil => intro x _ _ _; simp [op_loop]
  | cons y rest ih =>
    intro x hx hov hnz
    have hy : y ≠ 0 := hnz y (List.mem_cons_self y rest)
    have hnov : ¬ (x = LONG_MIN ∧ y = -1) := by
      rintro ⟨hxm, hym⟩
      apply hov
      refine ⟨hxm, ?_⟩
      subst hym
      simp [List.dropWhile_cons]
    obtain ⟨hq, hqmin⟩ := tdiv_inLong x y hx hy hnov
    have hov' : ¬ (Int.tdiv x y = LONG_MIN
        ∧ (rest.dropWhile (fun n => decide (n = 1))).head? = some (-1)) := by
      rintro ⟨hqm, hhead⟩
      obtain ⟨hxm, hy1⟩ := hqmin hqm
      apply hov
      refine ⟨hxm, ?_⟩
      subst hy1
      simpa [List.dropWhile_cons] using hhead
    rw [List.map_cons, op_loop_div_step, List.foldl_cons]
    simp only [hy, hnov, if_false]
    exact ih (Int.tdiv x y) hq hov' (fun n hn => hnz n (List.mem_cons_of_mem y hn))

/-- C11, refuted as stated: in `[LONG_MIN, 1, -1]` every argument after the
first is non-zero, yet `builtin_div` does not return the quotient: the second
division is `LONG_MIN / -1`, which no `long` holds, and the call faults. -/
theorem builtin_div_quotient_counterexample :
    builtin_div lenv_new [.num LONG_MIN, .num 1, .num (-1)] = .error .undefined
    ∧ builtin_div lenv_new [.num LONG_MIN, .num 1, .num (-1)]
      ≠ .ok (.num (List.foldl Int.tdiv LONG_MIN [1, -1]), lenv_new)
    ∧ (∀ n ∈ [(1 : Int), -1], n ≠ 0)
    ∧ inLong LONG_MIN ∧ inLong 1 ∧ inLong (-1)
    ∧ ¬ inLong (List.foldl Int.tdiv LONG_MIN [1, -1]) := by
  have h : builtin_div lenv_new [.num LONG_MIN, .num 1, .num (-1)] = .error .undefined := rfl
  refine ⟨h, ?_, by decide, by decide, by decide, by decide, by decide⟩
  rw [h]
  intro heq
  cases heq

/-- C11, amended: for Numbers `n0, n1, ..., nk` with `n0` in the range of
`long` and all of `n1..nk` non-zero, and unless the loop reaches
`LONG_MIN / -1` (`n0` is `LONG_MIN` and the first of `n1..nk` that is not `1`
is `-1`), `builtin_div` returns the quotient `((n0 / n1) / n2) ... / nk`
taken from the left, each division truncating toward zero. -/
theorem builtin_div_left_quotient (e : lenv) (n0 : Int) (ns : List Int)
    (h0 : inLong n0) (hnz : ∀ n ∈ ns, n ≠ 0)
    (hov : ¬ (n0 = LONG_MIN
      ∧ (ns.dropWhile (fun n => decide (n = 1))).head? = some (-1))) :
    builtin_div e (.num n0 :: ns.map LVal.num)
      = .ok (.num (List.foldl Int.tdiv n0 ns), e) := by
  have hop : ¬ ("/" = "-") := by decide
  have hcall := builtin_op_numbers e "/" n0 ns
  simp only [hop, false_and, if_false] at hcall
  rw [builtin_div, hcall, op_loop_div_fold ns n0 h0 hov hnz]

/-- Witness of the amended C11: `(/ -7 2)` and `(/ 7 -2)` are `-3`, where
floor division gives `-4`, and `(/ 100 7 3)` is `4`. -/
theorem builtin_div_left_quotient_witness :
    builtin_div builtin_env [.num (-7), .num 2] = .ok (.num (-3), builtin_env)
    ∧ builtin_div builtin_env [.num 7, .num (-2)] = .ok (.num (-3), builtin_env)
    ∧ builtin_div builtin_env [.num 100, .num 7, .num 3] = .ok (.num 4, builtin_env)
    ∧ (-7 : Int) / 2 = -4 :=
  ⟨builtin_div_left_quotient builtin_env (-7) [2] (by decide) (by decide) (by decide),
   builtin_div_left_quotient builtin_env 7 [-2] (by decide) (by decide) (by decide),
   builtin_div_left_quotient builtin_env 100 [7, 3] (by decide) (by decide) (by decide),
   by decide⟩

theorem any_of_mem_type_ne (a : List LVal) (t : LType) (h : ∃ x ∈ a, x.type ≠ t) :
    a.any (fun c => decide (c.type ≠ t)) = true := by
  obtain ⟨x, hx, hne⟩ := h
  rw [List.any_eq_true]
  exact ⟨x, hx, by simpa using hne⟩

/-- C12: each of `builtin_add`, `builtin_sub`, `builtin_mul` and `builtin_div`
(indeed `builtin_op` with any operator), applied to an argument list one of
whose elements is not a Number, returns the Error
`Cannot operate on non-numbers!` and leaves the environment as it was; the
test comes before any division, so `[1, 0, {}]` given to `/` yields this
Error and not the division-by-zero one. -/
theorem builtin_op_non_number (e : lenv) (a : List LVal)
    (h : ∃ x ∈ a, x.type ≠ .LVAL_NUM) :
    (∀ op : String, builtin_op e a op = .ok (.err "Cannot operate on non-numbers!", e))
    ∧ builtin_add e a = .ok (.err "Cannot operate on non-numbers!", e)
    ∧ builtin_sub e a = .ok (.err "Cannot operate on non-numbers!", e)
    ∧ builtin_mul e a = .ok (.err "Cannot operate on non-numbers!", e)
    ∧ builtin_div e a = .ok (.err "Cannot operate on non-numbers!", e) := by
  have hany := any_of_mem_type_ne a .LVAL_NUM h
  have hmsg : lval_err "Cannot operate on non-numbers!"
      = .err "Cannot operate on non-numbers!" := rfl
  have hop : ∀ op : String,
      builtin_op e a op = .ok (.err "Cannot operate on non-numbers!", e) := by
    intro op
    simp only [builtin_op, hany, if_true, lassert_fail, hmsg]
  exact ⟨hop, hop "+", hop "-", hop "*", hop "/"⟩

/-- Witness of C12: `[1, 0, {}]` given to `/`. -/
theorem builtin_op_non_number_witness :
    builtin_div builtin_env [.num 1, .num 0, .qexpr []]
      = .ok (.err "Cannot operate on non-numbers!", builtin_env)
    ∧ builtin_div builtin_env [.num 1, .num 0]
      = .ok (.err "Division by zero!", builtin_env) :=
  ⟨(builtin_op_non_number builtin_env [.num 1, .num 0, .qexpr []]
      ⟨.qexpr [], by simp, by simp [LVal.type]⟩).2.2.2.2, rfl⟩

theorem head_loop_eq (x : LVal) (cs : List LVal) : head_loop x cs = [x] := by
  induction cs with
  | nil => rfl
  | cons c rest ih => rw [head_loop, ih]

/-- C13: `builtin_head` tests, in this order, that there is exactly one
argument, that it is a Q-expression and that it is not empty, and returns an
Error at the first test that fails (the last one with the message
`Function 'head' passed '{}'!`); on the single argument `{x0 x1 ... xn}` it
returns `{x0}`.  So it returns an Error exactly when one of the three tests
fails.  The environment is never touched. -/
theorem builtin_head_spec (e : lenv) (a : List LVal) :
    (a.length ≠ 1 → builtin_head e a
      = .ok (lval_err ("Function 'head' passed too many arguments! Got "
          ++ toString a.length ++ ", expected " ++ "1"), e))
    ∧ (∀ x : LVal, a = [x] → x.type ≠ .LVAL_QEXPR →
        builtin_head e a = .ok (.err "Function 'head' passed incorrect type!", e))
    ∧ (a = [.qexpr []] →
        builtin_head e a = .ok (.err "Function 'head' passed '\x7b\x7d'!", e))
    ∧ (∀ (x0 : LVal) (xs : List LVal), a = [.qexpr (x0 :: xs)] →
        builtin_head e a = .ok (.qexpr [x0], e))
    ∧ (∃ v : LVal, builtin_head e a = .ok (v, e)
        ∧ (v.type = .LVAL_ERR ↔
            (a.length ≠ 1 ∨ ∃ x : LVal, a = [x] ∧ (x.type ≠ .LVAL_QEXPR ∨ x = .qexpr [])))) := by
  have harity : a.length ≠ 1 → builtin_head e a
      = .ok (lval_err ("Function 'head' passed too many arguments! Got "
          ++ toString a.length ++ ", expected " ++ "1"), e) := by
    intro h
    simp only [builtin_head, h, ne_eq, not_false_eq_true, if_true, lassert_fail]
    rfl
  have htype : ∀ x : LVal, a = [x] → x.type ≠ .LVAL_QEXPR →
      builtin_head e a = .ok (.err "Function 'head' passed incorrect type!", e) := by
    intro x ha hx
    subst ha
    cases x with
    | qexpr cell => exact absurd rfl hx
    | num n => rfl
    | err m => rfl
    | sym s => rfl
    | sexpr c => rfl
    | fn f => rfl
    | err_cut m => rfl
    | sym_cut s => rfl
  have hempty : a = [.qexpr []] →
      builtin_head e a = .ok (.err "Function 'head' passed '\x7b\x7d'!", e) := by
    intro ha
    subst ha
    rfl
  have hok : ∀ (x0 : LVal) (xs : List LVal), a = [.qexpr (x0 :: xs)] →
      builtin_head e a = .ok (.qexpr [x0], e) := by
    intro x0 xs ha
    subst ha
    simp [builtin_head, head_loop_eq]
  refine ⟨harity, htype, hempty, hok, ?_⟩
  by_cases hlen : a.length = 1
  · obtain ⟨x, hx⟩ := List.length_eq_one.mp hlen
    by_cases hq : x.type = .LVAL_QEXPR
    · cases x with
      | qexpr cell =>
        cases cell with
        | nil =>
          refine ⟨_, hempty hx, ?_⟩
          simp only [LVal.type, true_iff]
          exact Or.inr ⟨.qexpr [], hx, Or.inr rfl⟩
        | cons x0 xs =>
          refine ⟨_, hok x0 xs hx, ?_⟩
          subst hx
          simp [LVal.type]
      | num n => simp [LVal.type] at hq
      | err m => simp [LVal.type] at hq
      | sym s => simp [LVal.type] at hq
      | sexpr c => simp [LVal.type] at hq
      | fn f => simp [LVal.type] at hq
      | err_cut m => simp [LVal.type] at hq
      | sym_cut s => simp [LVal.type] at hq
    · refine ⟨_, htype x hx hq, ?_⟩
      simp only [LVal.type, true_iff]
      exact Or.inr ⟨x, hx, Or.inl hq⟩
  · refine ⟨_, harity hlen, ?_⟩
    simp only [lval_err_type, true_iff]
    exact Or.inl hlen

/-- Witness of C13: `head {1 2 3}` is `{1}`, `head 5` is the type Error,
`head {}` the empty-list Error, and two arguments the arity Error. -/
theorem builtin_head_spec_witness :
    builtin_head builtin_env [.qexpr [.num 1, .num 2, .num 3]]
      = .ok (.qexpr [.num 1], builtin_env)
    ∧ builtin_head builtin_env [.num 5]
      = .ok (.err "Function 'head' passed incorrect type!", builtin_env)
    ∧ builtin_head builtin_env [.qexpr []]
      = .ok (.err "Function 'head' passed '\x7b\x7d'!", builtin_env)
    ∧ builtin_head builtin_env [.num 5, .qexpr []]
      = .ok (.err "Function 'head' passed too many arguments! Got 2, expected 1",
          builtin_env) :=
  ⟨(builtin_head_spec builtin_env [.qexpr [.num 1, .num 2, .num 3]]).2.2.2.1
      (.num 1) [.num 2, .num 3] rfl,
   (builtin_head_spec builtin_env [.num 5]).2.1 (.num 5) rfl (by simp [LVal.type]),
   (builtin_head_spec builtin_env [.qexpr []]).2.2.1 rfl,
   (builtin_head_spec builtin_env [.num 5, .qexpr []]).1 (by simp)⟩

/-- C14: `builtin_tail` makes the same three tests as `builtin_head`, in the
same order, and returns an Error exactly when one of them fails; on the
single argument `{x0 x1 ... xn}` it returns `{x1 ... xn}`, the remaining
elements in their order, so `tail {1}` is `{}`. -/
theorem builtin_tail_spec (e : lenv) (a : List LVal) :
    (a.length ≠ 1 → builtin_tail e a
      = .ok (.err "Function 'tail' passed too many arguments!", e))
    ∧ (∀ x : LVal, a = [x] → x.type ≠ .LVAL_QEXPR →
        builtin_tail e a = .ok (.err "Function 'tail' passed incorrect type!", e))
    ∧ (a = [.qexpr []] →
        builtin_tail e a = .ok (.err "Function 'tail' passed '\x7b\x7d'!", e))
    ∧ (∀ (x0 : LVal) (xs : List LVal), a = [.qexpr (x0 :: xs)] →
        builtin_tail e a = .ok (.qexpr xs, e))
    ∧ (∃ v : LVal, builtin_tail e a = .ok (v, e)
        ∧ (v.type = .LVAL_ERR ↔
            (a.length ≠ 1 ∨ ∃ x : LVal, a = [x] ∧ (x.type ≠ .LVAL_QEXPR ∨ x = .qexpr [])))) := by
  have harity : a.length ≠ 1 → builtin_tail e a
      = .ok (.err "Function 'tail' passed too many arguments!", e) := by
    intro h
    simp only [builtin_tail, h, ne_eq, not_false_eq_true, if_true, lassert_fail]
    rfl
  have htype : ∀ x : LVal, a = [x] → x.type ≠ .LVAL_QEXPR →
      builtin_tail e a = .ok (.err "Function 'tail' passed incorrect type!", e) := by
    intro x ha hx
    subst ha
    cases x with
    | qexpr cell => exact absurd rfl hx
    | num n => rfl
    | err m => rfl
    | sym s => rfl
    | sexpr c => rfl
    | fn f => rfl
    | err_cut m => rfl
    | sym_cut s => rfl
  have hempty : a = [.qexpr []] →
      builtin_tail e a = .ok (.err "Function 'tail' passed '\x7b\x7d'!", e) := by
    intro ha
    subst ha
    rfl
  have hok : ∀ (x0 : LVal) (xs : List LVal), a = [.qexpr (x0 :: xs)] →
      builtin_tail e a = .ok (.qexpr xs, e) := by
    intro x0 xs ha
    subst ha
    simp [builtin_tail, lval_pop]
  refine ⟨harity, htype, hempty, hok, ?_⟩
  by_cases hlen : a.length = 1
  · obtain ⟨x, hx⟩ := List.length_eq_one.mp hlen
    by_cases hq : x.type = .LVAL_QEXPR
    · cases x with
      | qexpr cell =>
        cases cell with
        | nil =>
          refine ⟨_, hempty hx, ?_⟩
          simp only [LVal.type, true_iff]
          exact Or.inr ⟨.qexpr [], hx, Or.inr rfl⟩
        | cons x0 xs =>
          refine ⟨_, hok x0 xs hx, ?_⟩
          subst hx
          simp [LVal.type]
      | num n => simp [LVal.type] at hq
      | err m => simp [LVal.type] at hq
      | sym s => simp [LVal.type] at hq
      | sexpr c => simp [LVal.type] at hq
      | fn f => simp [LVal.type] at hq
      | err_cut m => simp [LVal.type] at hq
      | sym_cut s => simp [LVal.type] at hq
    · refine ⟨_, htype x hx hq, ?_⟩
      simp only [LVal.type, true_iff]
      exact Or.inr ⟨x, hx, Or.inl hq⟩
  · refine ⟨_, harity hlen, ?_⟩
    simp only [LVal.type, true_iff]
    exact Or.inl hlen

/-- Witness of C14: `tail {1 2 3}` is `{2 3}`, `tail {1}` is `{}`, and
`tail 5`, `tail {}` and `tail {1} {2}` are Errors. -/
theorem builtin_tail_spec_witness :
    builtin_tail builtin_env [.qexpr [.num 1, .num 2, .num 3]]
      = .ok (.qexpr [.num 2, .num 3], builtin_env)
    ∧ builtin_tail builtin_env [.qexpr [.num 1]] = .ok (.qexpr [], builtin_env)
    ∧ builtin_tail builtin_env [.num 5]
      = .ok (.err "Function 'tail' passed incorrect type!", builtin_env)
    ∧ builtin_tail builtin_env [.qexpr []]
      = .ok (.err "Function 'tail' passed '\x7b\x7d'!", builtin_env)
    ∧ builtin_tail builtin_env [.qexpr [.num 1], .qexpr [.num 2]]
      = .ok (.err "Function 'tail' passed too many arguments!", builtin_env) :=
  ⟨(builtin_tail_spec builtin_env [.qexpr [.num 1, .num 2, .num 3]]).2.2.2.1
      (.num 1) [.num 2, .num 3] rfl,
   (builtin_tail_spec builtin_env [.qexpr [.num 1]]).2.2.2.1 (.num 1) [] rfl,
   (builtin_tail_spec builtin_env [.num 5]).2.1 (.num 5) rfl (by simp [LVal.type]),
   (builtin_tail_spec builtin_env [.qexpr []]).2.2.1 rfl,
   (builtin_tail_spec builtin_env [.qexpr [.num 1], .qexpr [.num 2]]).1 (by simp)⟩

theorem lval_join_eq_append (y : List LVal) : ∀ x : List LVal, lval_join x y = x ++ y := by
  induction y with
  | nil => intro x; simp [lval_join]
  | cons c rest ih => intro x; simp [lval_join, lval_add, ih]

theorem join_loop_qexprs (qs : List (List LVal)) :
    ∀ x : List LVal, join_loop x (qs.map LVal.qexpr) = .ok (x ++ qs.flatten) := by
  induction qs with
  | nil => intro x; simp [join_loop]
  | cons q rest ih =>
    intro x
    simp [join_loop, lval_join_eq_append, ih]

theorem any_not_qexpr_map (qs : List (List LVal)) :
    (qs.map LVal.qexpr).any (fun c => decide (c.type ≠ .LVAL_QEXPR)) = false := by
  induction qs with
  | nil => rfl
  | cons q rest ih => simp [List.any_cons, LVal.type]

/-- C15: `builtin_join` applied to a non-empty list of Q-expressions
`q0, ..., qk` returns the Q-expression whose children are those of `q0`, then
those of `q1`, and so on to `qk`, each in its order; applied to a list one of
whose elements is not a Q-expression it returns the Error
`Function 'join' passed incorrect type!`. -/
theorem builtin_join_spec (e : lenv) :
    (∀ (q0 : List LVal) (qs : List (List LVal)),
      builtin_join e ((q0 :: qs).map LVal.qexpr) = .ok (.qexpr (q0 :: qs).flatten, e))
    ∧ (∀ a : List LVal, (∃ x ∈ a, x.type ≠ .LVAL_QEXPR) →
      builtin_join e a = .ok (.err "Function 'join' passed incorrect type!", e)) := by
  constructor
  · intro q0 qs
    have hany := any_not_qexpr_map (q0 :: qs)
    simp only [List.map_cons] at hany
    simp only [builtin_join, List.map_cons, hany, join_loop_qexprs, List.flatten_cons]
    rfl
  · intro a h
    have hany := any_of_mem_type_ne a .LVAL_QEXPR h
    simp only [builtin_join, hany, if_true, lassert_fail]
    rfl

/-- Witness of C15: `join {1 2} {3} {4 5}` is `{1 2 3 4 5}` and `join {1} 2`
is an Error. -/
theorem builtin_join_spec_witness :
    builtin_join builtin_env
        [.qexpr [.num 1, .num 2], .qexpr [.num 3], .qexpr [.num 4, .num 5]]
      = .ok (.qexpr [.num 1, .num 2, .num 3, .num 4, .num 5], builtin_env)
    ∧ builtin_join builtin_env [.qexpr [.num 1], .num 2]
      = .ok (.err "Function 'join' passed incorrect type!", builtin_env) :=
  ⟨(builtin_join_spec builtin_env).1 [.num 1, .num 2] [[.num 3], [.num 4, .num 5]],
   (builtin_join_spec builtin_env).2 [.qexpr [.num 1], .num 2]
      ⟨.num 2, by simp, by simp [LVal.type]⟩⟩

/-- C16: `builtin_eval` applied to a single Q-expression with children
`c0..cn` is `lval_eval` of the S-expression with those children, value,
environment and fault alike, so `eval {+ 1 2}` is `3`; applied to a list that
does not hold exactly one argument, or to one argument that is not a
Q-expression, it returns an Error. -/
theorem builtin_eval_spec (fuel : Nat) (e : lenv) :
    (∀ cell : List LVal,
      builtin_eval (lval_eval fuel) e [.qexpr cell] = lval_eval fuel e (.sexpr cell))
    ∧ (∀ a : List LVal, a.length ≠ 1 →
      builtin_eval (lval_eval fuel) e a
        = .ok (.err "Function 'eval' passed too many arguments!", e))
    ∧ (∀ x : LVal, x.type ≠ .LVAL_QEXPR →
      builtin_eval (lval_eval fuel) e [x]
        = .ok (.err "Function 'eval' passed incorrect type!", e))
    ∧ lval_eval 3 builtin_env (.sexpr [.sym "eval", .qexpr [.sym "+", .num 1, .num 2]])
        = .ok (.num 3, builtin_env) := by
  refine ⟨fun cell => rfl, ?_, ?_, rfl⟩
  · intro a h
    simp only [builtin_eval, h, ne_eq, not_false_eq_true, if_true, lassert_fail]
    rfl
  · intro x hx
    cases x with
    | qexpr cell => exact absurd rfl hx
    | num n => rfl
    | err m => rfl
    | sym s => rfl
    | sexpr c => rfl
    | fn f => rfl
    | err_cut m => rfl
    | sym_cut s => rfl

/-- Witness of C16: `eval {+ 1 2}` called directly, `eval 1 2` and `eval 5`. -/
theorem builtin_eval_spec_witness :
    builtin_eval (lval_eval 2) builtin_env [.qexpr [.sym "+", .num 1, .num 2]]
      = .ok (.num 3, builtin_env)
    ∧ builtin_eval (lval_eval 2) builtin_env [.num 1, .num 2]
      = .ok (.err "Function 'eval' passed too many arguments!", builtin_env)
    ∧ builtin_eval (lval_eval 2) builtin_env [.num 5]
      = .ok (.err "Function 'eval' passed incorrect type!", builtin_env) :=
  ⟨((builtin_eval_spec 2 builtin_env).1 [.sym "+", .num 1, .num 2]).trans rfl,
   (builtin_eval_spec 2 builtin_env).2.1 [.num 1, .num 2] (by simp),
   (builtin_eval_spec 2 builtin_env).2.2.1 (.num 5) (by simp [LVal.type])⟩

/-- C17: `builtin_len` applied to a single non-empty Q-expression with `n`
children returns `Number n`; applied to a list that does not hold exactly one
argument it returns an Error, the one `lval_err` makes of
`Function 'len' passed too many arguments!`, and applied to the empty
Q-expression it returns the Error `Function 'len' passed '{}'!`, not `0`. -/
theorem builtin_len_spec (e : lenv) :
    (∀ (x0 : LVal) (xs : List LVal),
      builtin_len e [.qexpr (x0 :: xs)] = .ok (.num ((x0 :: xs).length : Nat), e))
    ∧ (∀ a : List LVal, a.length ≠ 1 →
      builtin_len e a = .ok (lval_err "Function 'len' passed too many arguments!", e)
      ∧ ∃ v : LVal, builtin_len e a = .ok (v, e) ∧ v.type = .LVAL_ERR)
    ∧ builtin_len e [.qexpr []] = .ok (.err "Function 'len' passed '\x7b\x7d'!", e) := by
  refine ⟨?_, ?_, rfl⟩
  · intro x0 xs
    simp [builtin_len, LVal.count, lval_num]
  · intro a h
    have h1 : builtin_len e a
        = .ok (lval_err "Function 'len' passed too many arguments!", e) := by
      simp only [builtin_len, h, ne_eq, not_false_eq_true, if_true, lassert_fail]
    exact ⟨h1, _, h1, lval_err_type _⟩

/-- Witness of C17: `len {1 2 3}` is `3` and `len {1} {2}` is an Error. -/
theorem builtin_len_spec_witness :
    builtin_len builtin_env [.qexpr [.num 1, .num 2, .num 3]]
      = .ok (.num 3, builtin_env)
    ∧ ∃ v : LVal, builtin_len builtin_env [.qexpr [.num 1], .qexpr [.num 2]]
        = .ok (v, builtin_env) ∧ v.type = .LVAL_ERR :=
  ⟨(builtin_len_spec builtin_env).1 (.num 1) [.num 2, .num 3],
   ((builtin_len_spec builtin_env).2.1 [.qexpr [.num 1], .qexpr [.num 2]] (by simp)).2⟩

/-- C18: `builtin_list` returns, for every argument list `a0, ..., an`, the
Q-expression with the same elements in the same order, which is never an
Error, and leaves the environment as it was. -/
theorem builtin_list_spec (e : lenv) (a : List LVal) :
    builtin_list e a = .ok (.qexpr a, e)
    ∧ (LVal.qexpr a).type ≠ .LVAL_ERR
    ∧ (∀ (v : LVal) (e' : lenv), builtin_list e a = .ok (v, e') →
        v.type ≠ .LVAL_ERR ∧ e' = e) := by
  refine ⟨rfl, by simp [LVal.type], ?_⟩
  intro v e' h
  simp only [builtin_list] at h
  injection h with h
  injection h with hv he
  subst hv
  exact ⟨by simp [LVal.type], he.symm⟩

/-- Witness of C18: `list 1 {2}` returns `{1 {2}}`, not an Error, in the same
environment. -/
theorem builtin_list_spec_witness :
    (LVal.qexpr [.num 1, .qexpr [.num 2]]).type ≠ .LVAL_ERR ∧ builtin_env = builtin_env :=
  (builtin_list_spec builtin_env [.num 1, .qexpr [.num 2]]).2.2
    (.qexpr [.num 1, .qexpr [.num 2]]) builtin_env rfl

mutual
theorem lval_copy_idem : ∀ v : LVal, lval_copy (lval_copy v) = lval_copy v
  | .fn _ => rfl
  | .num _ => rfl
  | .err m => by
    by_cases h : string_fits m = true
    · simp only [lval_copy, h, if_true]
    · rw [lval_copy, if_neg h, lval_copy]
  | .sym s => by
    by_cases h : string_fits s = true
    · simp only [lval_copy, h, if_true]
    · rw [lval_copy, if_neg h, lval_copy]
  | .sexpr cell => by rw [lval_copy, lval_copy, lval_copy_cells_idem cell]
  | .qexpr cell => by rw [lval_copy, lval_copy, lval_copy_cells_idem cell]
  | .err_cut _ => rfl
  | .sym_cut _ => rfl
theorem lval_copy_cells_idem :
    ∀ cs : List LVal, lval_copy_cells (lval_copy_cells cs) = lval_copy_cells cs
  | [] => rfl
  | c :: cs => by
    rw [lval_copy_cells, lval_copy_cells, lval_copy_idem c, lval_copy_cells_idem cs]
end

theorem lenv_get_put_same (k : String) (v : LVal) :
    ∀ e : lenv, lenv_get (lenv_put e k v) k = lval_copy v := by
  intro e
  induction e with
  | nil => simp [lenv_put, lenv_get, lval_copy_idem]
  | cons p rest ih =>
    obtain ⟨s, x⟩ := p
    by_cases h : s = k
    · simp [lenv_put, lenv_get, h, lval_copy_idem]
    · simp [lenv_put, lenv_get, h, ih]

theorem lenv_get_put_other (k k' : String) (v : LVal) (hk : k ≠ k') :
    ∀ e : lenv, lenv_get (lenv_put e k v) k' = lenv_get e k' := by
  intro e
  induction e with
  | nil => simp [lenv_put, lenv_get, hk]
  | cons p rest ih =>
    obtain ⟨s, x⟩ := p
    by_cases h : s = k
    · subst h
      simp [lenv_put, lenv_get, hk]
    · by_cases h' : s = k'
      · subst h'
        simp [lenv_put, lenv_get, h]
      · simp [lenv_put, lenv_get, h, h', ih]

theorem def_loop_eq_foldl (ss : List String) :
    ∀ (vs : List LVal) (e : lenv),
      def_loop e (ss.map LVal.sym) vs
        = (ss.zip vs).foldl (fun env p => lenv_put env p.1 p.2) e := by
  induction ss with
  | nil => intro vs e; simp [def_loop]
  | cons s rest ih =>
    intro vs e
    cases vs with
    | nil => simp [def_loop]
    | cons v vs' => simp [def_loop, ih]

theorem lenv_get_foldl_put_other (s : String) (ps : List (String × LVal)) :
    ∀ e : lenv, (∀ p ∈ ps, p.1 ≠ s) →
      lenv_get (ps.foldl (fun env p => lenv_put env p.1 p.2) e) s = lenv_get e s := by
  induction ps with
  | nil => intro e _; rfl
  | cons p rest ih =>
    intro e h
    rw [List.foldl_cons, ih _ (fun q hq => h q (List.mem_cons_of_mem p hq))]
    exact lenv_get_put_other p.1 s p.2 (h p (List.mem_cons_self p rest)) e

theorem lenv_get_foldl_put_last (ss : List String) :
    ∀ (vs : List LVal) (e : lenv) (i : Nat) (s : String) (v : LVal),
      ss[i]? = some s → vs[i]? = some v →
      (∀ j : Nat, i < j → ss[j]? ≠ some s) →
      lenv_get ((ss.zip vs).foldl (fun env p => lenv_put env p.1 p.2) e) s = lval_copy v := by
  induction ss with
  | nil => intro vs e i s v hs; simp at hs
  | cons s0 rest ih =>
    intro vs e i s v hs hv hlast
    cases vs with
    | nil => simp at hv
    | cons v0 vs' =>
      rw [List.zip_cons_cons, List.foldl_cons]
      cases i with
      | zero =>
        simp only [List.getElem?_cons_zero, Option.some.injEq] at hs hv
        subst hs
        subst hv
        rw [lenv_get_foldl_put_other]
        · exact lenv_get_put_same s0 v0 e
        · intro p hp hps
          obtain ⟨hmem, _⟩ := List.of_mem_zip (a := p.1) (b := p.2) hp
          obtain ⟨n, hn⟩ := List.mem_iff_getElem?.mp hmem
          apply hlast (n + 1) (Nat.succ_pos n)
          rw [List.getElem?_cons_succ, hn, hps]
      | succ i' =>
        apply ih vs' _ i' s v
        · simpa using hs
        · simpa using hv
        · intro j hj hjs
          exact hlast (j + 1) (Nat.succ_lt_succ hj) (by simpa using hjs)

theorem any_not_sym_map (ss : List String) :
    (ss.map LVal.sym).any (fun c => decide (c.type ≠ .LVAL_SYM)) = false := by
  induction ss with
  | nil => rfl
  | cons s rest ih => simp [List.any_cons, LVal.type]

theorem any_sym_cut_map (ss : List String) :
    (ss.map LVal.sym).any LVal.is_sym_cut = false := by
  induction ss with
  | nil => rfl
  | cons s rest ih => simp [List.any_cons, LVal.is_sym_cut, ih]

/-- C19, the part the code keeps and the input where it fails: `builtin_def`
applied to `{s1 ... sn}` followed by `n` values `v1 ... vn` returns the empty
S-expression and the environment obtained from `lenv_put` of `s1` with `v1`,
then `s2` with `v2`, and so on.  In that environment `lenv_get` of a name of
the list returns the `lval_copy` of the value at the last position where the
name stands, which is that value whenever `lval_copy` has room for its
strings.  It does not for the Symbol of 25 letters: after
`def {x} {abcdefghijklmnopqrstuvwxy}` the value `lenv_get` returns for `x`
holds a name that is cut after 24 letters, not the value that was bound. -/
theorem builtin_def_binds (e : lenv) (ss : List String) (vs : List LVal)
    (hlen : ss.length = vs.length) :
    builtin_def e (.qexpr (ss.map LVal.sym) :: vs)
      = .ok (.sexpr [], (ss.zip vs).foldl (fun env p => lenv_put env p.1 p.2) e)
    ∧ (∀ (i : Nat) (s : String) (v : LVal), ss[i]? = some s → vs[i]? = some v →
        (∀ j : Nat, i < j → ss[j]? ≠ some s) →
        lenv_get ((ss.zip vs).foldl (fun env p => lenv_put env p.1 p.2) e) s = lval_copy v
        ∧ (lval_fits v = true →
            lenv_get ((ss.zip vs).foldl (fun env p => lenv_put env p.1 p.2) e) s = v))
    ∧ (ss.Nodup → ∀ (i : Nat) (s : String) (v : LVal), ss[i]? = some s → vs[i]? = some v →
        lenv_get ((ss.zip vs).foldl (fun env p => lenv_put env p.1 p.2) e) s = lval_copy v
        ∧ (lval_fits v = true →
            lenv_get ((ss.zip vs).foldl (fun env p => lenv_put env p.1 p.2) e) s = v))
    ∧ builtin_def e [.qexpr [.sym "x"], .qexpr [.sym "abcdefghijklmnopqrstuvwxy"]]
        = .ok (.sexpr [], lenv_put e "x" (.qexpr [.sym "abcdefghijklmnopqrstuvwxy"]))
    ∧ lenv_get (lenv_put e "x" (.qexpr [.sym "abcdefghijklmnopqrstuvwxy"])) "x"
        = .qexpr [.sym_cut "abcdefghijklmnopqrstuvwx"]
    ∧ lenv_get (lenv_put e "x" (.qexpr [.sym "abcdefghijklmnopqrstuvwxy"])) "x"
        ≠ .qexpr [.sym "abcdefghijklmnopqrstuvwxy"] := by
  have hlast : ∀ (i : Nat) (s : String) (v : LVal), ss[i]? = some s → vs[i]? = some v →
      (∀ j : Nat, i < j → ss[j]? ≠ some s) →
      lenv_get ((ss.zip vs).foldl (fun env p => lenv_put env p.1 p.2) e) s = lval_copy v
      ∧ (lval_fits v = true →
          lenv_get ((ss.zip vs).foldl (fun env p => lenv_put env p.1 p.2) e) s = v) := by
    intro i s v hs hv hj
    have h1 := lenv_get_foldl_put_last ss vs e i s v hs hv hj
    refine ⟨h1, fun hfit => ?_⟩
    rw [h1, lval_copy_id v hfit]
  have hget : lenv_get (lenv_put e "x" (.qexpr [.sym "abcdefghijklmnopqrstuvwxy"])) "x"
      = .qexpr [.sym_cut "abcdefghijklmnopqrstuvwx"] := by
    rw [lenv_get_put_same]
    rfl
  refine ⟨?_, hlast, ?_, rfl, hget, ?_⟩
  · simp only [builtin_def, any_not_sym_map, any_sym_cut_map, List.length_map,
      List.length_cons, Nat.add_sub_cancel, hlen, ne_eq, not_true_eq_false, if_false,
      def_loop_eq_foldl, lval_sexpr]
    rfl
  · intro hnodup i s v hs hv
    apply hlast i s v hs hv
    intro j hij hjs
    obtain ⟨hi, hgi⟩ := List.getElem?_eq_some.mp hs
    obtain ⟨hj, hgj⟩ := List.getElem?_eq_some.mp hjs
    have heq : ss[i] = ss[j] := by rw [hgi, hgj]
    have := (List.Nodup.getElem_inj_iff hnodup).mp heq
    omega
  · rw [hget]
    intro h
    injection h with h
    injection h with h _
    cases h

/-- Witness of C19: `def {x y x} 1 2 3` in the builtin environment binds `y`
to `2` and `x` to `3`, the value at its last occurrence; `def {x y} 1 2`,
with distinct names, binds `x` to `1`. -/
theorem builtin_def_binds_witness :
    builtin_def builtin_env [.qexpr [.sym "x", .sym "y", .sym "x"], .num 1, .num 2, .num 3]
      = .ok (.sexpr [],
          lenv_put (lenv_put (lenv_put builtin_env "x" (.num 1)) "y" (.num 2)) "x" (.num 3))
    ∧ lenv_get (lenv_put (lenv_put (lenv_put builtin_env "x" (.num 1)) "y" (.num 2))
        "x" (.num 3)) "x" = .num 3
    ∧ lenv_get (lenv_put (lenv_put builtin_env "x" (.num 1)) "y" (.num 2)) "x" = .num 1 :=
  ⟨(builtin_def_binds builtin_env ["x", "y", "x"] [.num 1, .num 2, .num 3] rfl).1,
   ((builtin_def_binds builtin_env ["x", "y", "x"] [.num 1, .num 2, .num 3] rfl).2.1
      2 "x" (.num 3) rfl rfl
      (by
        intro j hj hjs
        obtain ⟨hlt, _⟩ := List.getElem?_eq_some.mp hjs
        have h3 : j < 3 := hlt
        omega)).2 rfl,
   ((builtin_def_binds builtin_env ["x", "y"] [.num 1, .num 2] rfl).2.2.1
      (by decide) 0 "x" (.num 1) rfl rfl).2 rfl⟩

/-- C20: `builtin_def` applied to a non-empty argument list returns an Error
exactly when its first argument is not a Q-expression, or an element of that
Q-expression is not a Symbol, or the number of names differs from the number
of arguments that follow, and it leaves the environment as it was then.  In
every other case where no name is cut it returns the empty S-expression.  So
`def {x y} 1` and `def {x} 1 2` are Errors, as are `def {1} 2` and `def 1 2`,
and `def {}` with no value returns the empty S-expression. -/
theorem builtin_def_error_iff (e : lenv) (first : LVal) (rest : List LVal) :
    ((∃ (v : LVal) (e' : lenv),
        builtin_def e (first :: rest) = .ok (v, e') ∧ v.type = .LVAL_ERR)
      ↔ (first.type ≠ .LVAL_QEXPR
          ∨ ∃ names : List LVal, first = .qexpr names
              ∧ ((∃ x ∈ names, x.type ≠ .LVAL_SYM) ∨ names.length ≠ rest.length)))
    ∧ (∀ (v : LVal) (e' : lenv), builtin_def e (first :: rest) = .ok (v, e') →
        v.type = .LVAL_ERR → e' = e)
    ∧ (∀ names : List LVal, first = .qexpr names →
        (∀ x ∈ names, x.type = .LVAL_SYM) → names.length = rest.length →
        names.any LVal.is_sym_cut = false →
        builtin_def e (first :: rest) = .ok (.sexpr [], def_loop e names rest))
    ∧ builtin_def e [.qexpr [.sym "x", .sym "y"], .num 1]
        = .ok (.err "Function 'def' cannot define incorrect number of values to symbols!", e)
    ∧ builtin_def e [.qexpr [.sym "x"], .num 1, .num 2]
        = .ok (.err "Function 'def' cannot define incorrect number of values to symbols!", e)
    ∧ (∃ v : LVal, builtin_def e [.qexpr [.num 1], .num 2] = .ok (v, e) ∧ v.type = .LVAL_ERR)
    ∧ builtin_def e [.num 1, .num 2]
        = .ok (.err "Function 'def' passed incorrect type!", e)
    ∧ builtin_def e [.qexpr []] = .ok (.sexpr [], e) := by
  refine ⟨⟨?_, ?_⟩, ?_, ?_, rfl, rfl, ⟨_, rfl, lval_err_type _⟩, rfl, rfl⟩
  · rintro ⟨v, e', hres, herr⟩
    cases first with
    | qexpr names =>
      right
      refine ⟨names, rfl, ?_⟩
      by_contra hcon
      rw [not_or] at hcon
      obtain ⟨hsym, hlen⟩ := hcon
      have hany : names.any (fun c => decide (c.type ≠ .LVAL_SYM)) = false := by
        rw [Bool.eq_false_iff]
        intro hany
        obtain ⟨x, hx, hp⟩ := List.any_eq_true.mp hany
        exact hsym ⟨x, hx, by simpa using hp⟩
      have hlen2 : names.length = rest.length := not_not.mp hlen
      simp only [builtin_def, hany, List.length_cons, Nat.add_sub_cancel, hlen2, ne_eq,
        not_true_eq_false, if_false, Bool.false_eq_true] at hres
      split at hres
      · cases hres
      · injection hres with hres
        injection hres with hv _
        subst hv
        simp [lval_sexpr, LVal.type] at herr
    | num n => left; simp [LVal.type]
    | err m => left; simp [LVal.type]
    | sym s => left; simp [LVal.type]
    | sexpr c => left; simp [LVal.type]
    | fn f => left; simp [LVal.type]
    | err_cut m => left; simp [LVal.type]
    | sym_cut s => left; simp [LVal.type]
  · intro hcond
    cases first with
    | qexpr names =>
      rcases hcond with h | ⟨names', hn, h⟩
      · exact absurd rfl h
      · injection hn with hn
        subst hn
        by_cases hany : names.any (fun c => decide (c.type ≠ .LVAL_SYM)) = true
        · exact ⟨lval_err "Function 'def' cannot define non-symbol!", e,
            by simp only [builtin_def, hany, if_true, lassert_fail], lval_err_type _⟩
        · rcases h with ⟨x, hx, hne⟩ | hlen
          · exact absurd (any_of_mem_type_ne names .LVAL_SYM ⟨x, hx, hne⟩) hany
          · exact ⟨lval_err
              "Function 'def' cannot define incorrect number of values to symbols!", e, by
              simp only [builtin_def, hany, List.length_cons, Nat.add_sub_cancel, hlen, ne_eq,
                not_false_eq_true, if_true, if_false, lassert_fail]
              rfl, lval_err_type _⟩
    | num n => exact ⟨_, e, rfl, lval_err_type _⟩
    | err m => exact ⟨_, e, rfl, lval_err_type _⟩
    | sym s => exact ⟨_, e, rfl, lval_err_type _⟩
    | sexpr c => exact ⟨_, e, rfl, lval_err_type _⟩
    | fn f => exact ⟨_, e, rfl, lval_err_type _⟩
    | err_cut m => exact ⟨_, e, rfl, lval_err_type _⟩
    | sym_cut s => exact ⟨_, e, rfl, lval_err_type _⟩
  · intro v e' hres herr
    cases first with
    | qexpr names =>
      simp only [builtin_def, lassert_fail] at hres
      repeat' split at hres
      all_goals first
        | (cases hres; done)
        | (injection hres with hres; injection hres with hv he; exact he.symm)
        | (injection hres with hres; injection hres with hv he; subst hv
           simp [lval_sexpr, LVal.type] at herr)
    | num n => injection hres with hres; injection hres with hv he; exact he.symm
    | err m => injection hres with hres; injection hres with hv he; exact he.symm
    | sym s => injection hres with hres; injection hres with hv he; exact he.symm
    | sexpr c => injection hres with hres; injection hres with hv he; exact he.symm
    | fn f => injection hres with hres; injection hres with hv he; exact he.symm
    | err_cut m => injection hres with hres; injection hres with hv he; exact he.symm
    | sym_cut s => injection hres with hres; injection hres with hv he; exact he.symm
  · intro names hfirst hsym hlen hcut
    subst hfirst
    have hany : names.any (fun c => decide (c.type ≠ .LVAL_SYM)) = false := by
      rw [Bool.eq_false_iff]
      intro hany
      obtain ⟨x, hx, hp⟩ := List.any_eq_true.mp hany
      exact (by simpa using hp : x.type ≠ .LVAL_SYM) (hsym x hx)
    simp only [builtin_def, hany, hcut, List.length_cons, Nat.add_sub_cancel, hlen, ne_eq,
      not_true_eq_false, if_false, Bool.false_eq_true, lval_sexpr]

/-- Witness of C20: `def {x y} 1`, with two names and one value, returns an
Error in the builtin environment. -/
theorem builtin_def_error_iff_witness :
    ∃ (v : LVal) (e' : lenv), builtin_def builtin_env [.qexpr [.sym "x", .sym "y"], .num 1]
      = .ok (v, e') ∧ v.type = .LVAL_ERR :=
  (builtin_def_error_iff builtin_env (.qexpr [.sym "x", .sym "y"]) [.num 1]).1.mpr
    (Or.inr ⟨[.sym "x", .sym "y"], rfl, Or.inr (by decide)⟩)

/-- C21, the part the code keeps and the input where it fails: `lenv_get` of
`k` after `lenv_put` of `k` with `v` returns the `lval_copy` of `v`, and after
a second `lenv_put` of `k` with `w` the `lval_copy` of `w` (the last write
wins); it is `v`, or `w`, whenever `lval_copy` has room for the strings of
the value.  It does not for the Symbol of 25 letters: what `lenv_get` returns
after `lenv_put` of `{abcdefghijklmnopqrstuvwxy}` holds a name that is cut
after 24 letters, and is not the value that was put. -/
theorem lenv_put_get_round_trip (e : lenv) (k : String) (v w : LVal) :
    lenv_get (lenv_put e k v) k = lval_copy v
    ∧ lenv_get (lenv_put (lenv_put e k v) k w) k = lval_copy w
    ∧ (lval_fits v = true → lenv_get (lenv_put e k v) k = v)
    ∧ (lval_fits w = true → lenv_get (lenv_put (lenv_put e k v) k w) k = w)
    ∧ lenv_get (lenv_put e k (.qexpr [.sym "abcdefghijklmnopqrstuvwxy"])) k
        = .qexpr [.sym_cut "abcdefghijklmnopqrstuvwx"]
    ∧ lenv_get (lenv_put e k (.qexpr [.sym "abcdefghijklmnopqrstuvwxy"])) k
        ≠ .qexpr [.sym "abcdefghijklmnopqrstuvwxy"] := by
  have hget : lenv_get (lenv_put e k (.qexpr [.sym "abcdefghijklmnopqrstuvwxy"])) k
      = .qexpr [.sym_cut "abcdefghijklmnopqrstuvwx"] := by
    rw [lenv_get_put_same]
    rfl
  refine ⟨lenv_get_put_same k v e, lenv_get_put_same k w (lenv_put e k v), ?_, ?_, hget, ?_⟩
  · intro h
    rw [lenv_get_put_same, lval_copy_id v h]
  · intro h
    rw [lenv_get_put_same, lval_copy_id w h]
  · rw [hget]
    intro h
    injection h with h
    injection h with h _
    cases h

/-- Witness of C21: `5` put under `x` in the builtin environment is read
back, and `6` after it is put over it. -/
theorem lenv_put_get_round_trip_witness :
    lenv_get (lenv_put builtin_env "x" (.num 5)) "x" = .num 5
    ∧ lenv_get (lenv_put (lenv_put builtin_env "x" (.num 5)) "x" (.num 6)) "x" = .num 6 :=
  ⟨(lenv_put_get_round_trip builtin_env "x" (.num 5) (.num 6)).2.2.1 rfl,
   (lenv_put_get_round_trip builtin_env "x" (.num 5) (.num 6)).2.2.2.1 rfl⟩

theorem lenv_put_names (k : String) (v : LVal) :
    ∀ e : lenv, (lenv_put e k v).map Prod.fst
      = if k ∈ e.map Prod.fst then e.map Prod.fst else e.map Prod.fst ++ [k] := by
  intro e
  induction e with
  | nil => simp [lenv_put]
  | cons p rest ih =>
    obtain ⟨s, x⟩ := p
    by_cases h : s = k
    · subst h
      simp [lenv_put]
    · have hks : ¬ k = s := fun h1 => h h1.symm
      by_cases hmem : k ∈ rest.map Prod.fst
      · simp only [lenv_put, h, if_false, List.map_cons, ih, hmem, if_true, List.mem_cons,
          or_true]
      · simp only [lenv_put, h, if_false, List.map_cons, ih, hmem, List.mem_cons, hks,
          or_self, List.cons_append]

theorem lenv_put_nodup (e : lenv) (k : String) (v : LVal)
    (h : (e.map Prod.fst).Nodup) : ((lenv_put e k v).map Prod.fst).Nodup := by
  rw [lenv_put_names]
  by_cases hmem : k ∈ e.map Prod.fst
  · simp only [hmem, if_true]
    exact h
  · simp only [hmem, if_false]
    rw [List.nodup_append]
    refine ⟨h, List.nodup_singleton k, ?_⟩
    intro a ha hb
    rw [List.mem_singleton] at hb
    subst hb
    exact hmem ha

theorem def_loop_nodup (names : List LVal) :
    ∀ (vals : List LVal) (e : lenv), (e.map Prod.fst).Nodup →
      ((def_loop e names vals).map Prod.fst).Nodup := by
  induction names with
  | nil => intro vals e h; simpa [def_loop] using h
  | cons n rest ih =>
    intro vals e h
    cases vals with
    | nil => cases n <;> simpa [def_loop] using h
    | cons v vs =>
      cases n with
      | sym k =>
        simp only [def_loop]
        exact ih vs _ (lenv_put_nodup e k v h)
      | num _ => simpa [def_loop] using h
      | err _ => simpa [def_loop] using h
      | sexpr _ => simpa [def_loop] using h
      | qexpr _ => simpa [def_loop] using h
      | fn _ => simpa [def_loop] using h
      | err_cut _ => simpa [def_loop] using h
      | sym_cut _ => simpa [def_loop] using h

theorem builtin_def_cases (e : lenv) (a : List LVal) (v : LVal) (e' : lenv)
    (h : builtin_def e a = .ok (v, e')) :
    (v.type = .LVAL_ERR ∧ e' = e)
    ∨ (v = .sexpr [] ∧ ∃ (names vals : List LVal),
        a = .qexpr names :: vals ∧ (∀ n ∈ names, n.type = .LVAL_SYM)
        ∧ names.length = vals.length ∧ e' = def_loop e names vals) := by
  cases a with
  | nil => simp [builtin_def] at h
  | cons first rest =>
    have herr : ∀ msg : String, Except.ok (lval_err msg, e) = (Except.ok (v, e') : Res) →
        v.type = .LVAL_ERR ∧ e' = e := by
      intro msg hm
      injection hm with hm
      injection hm with hv he
      subst hv
      exact ⟨lval_err_type _, he.symm⟩
    cases first with
    | qexpr names =>
      simp only [builtin_def, lassert_fail] at h
      by_cases hany : names.any (fun c => decide (c.type ≠ .LVAL_SYM)) = true
      · simp only [hany, if_true] at h
        exact Or.inl (herr _ h)
      · simp only [hany] at h
        by_cases hlen : names.length = rest.length
        · simp only [List.length_cons, Nat.add_sub_cancel, hlen, ne_eq, not_true_eq_false,
            if_false] at h
          by_cases hcut : names.any LVal.is_sym_cut = true
          · simp only [hcut, if_true] at h
            cases h
          simp only [hcut] at h
          injection h with h
          injection h with hv he
          refine Or.inr ⟨hv.symm, names, rest, rfl, ?_, hlen, he.symm⟩
          intro n hn
          by_contra hne
          exact hany (any_of_mem_type_ne names .LVAL_SYM ⟨n, hn, hne⟩)
        · simp only [List.length_cons, Nat.add_sub_cancel, hlen, ne_eq, not_false_eq_true,
            if_true, if_false] at h
          exact Or.inl (herr _ h)
    | num n => exact Or.inl (herr _ h)
    | err m => exact Or.inl (herr _ h)
    | sym s => exact Or.inl (herr _ h)
    | sexpr c => exact Or.inl (herr _ h)
    | fn f => exact Or.inl (herr _ h)
    | err_cut m => exact Or.inl (herr _ h)
    | sym_cut s => exact Or.inl (herr _ h)

/-- C22: no two entries of the environment carry the same name.  The empty
environment of `lenv_new` has the property; `lenv_put` keeps it, adding
exactly one entry when the name was absent and none when it was present; so
do `lenv_add_builtins` and `builtin_def`, and the builtin environment has
it. -/
theorem lenv_names_nodup :
    (lenv_new.map Prod.fst).Nodup
    ∧ (∀ (e : lenv) (k : String) (v : LVal), (e.map Prod.fst).Nodup →
        ((lenv_put e k v).map Prod.fst).Nodup)
    ∧ (∀ (e : lenv) (k : String) (v : LVal), k ∈ e.map Prod.fst →
        (lenv_put e k v).length = e.length)
    ∧ (∀ (e : lenv) (k : String) (v : LVal), k ∉ e.map Prod.fst →
        (lenv_put e k v).length = e.length + 1)
    ∧ (∀ e : lenv, (e.map Prod.fst).Nodup → ((lenv_add_builtins e).map Prod.fst).Nodup)
    ∧ (∀ (e e' : lenv) (a : List LVal) (v : LVal), (e.map Prod.fst).Nodup →
        builtin_def e a = .ok (v, e') → (e'.map Prod.fst).Nodup)
    ∧ (builtin_env.map Prod.fst).Nodup := by
  have hnew : (lenv_new.map Prod.fst).Nodup := by simp [lenv_new]
  have hadd : ∀ e : lenv, (e.map Prod.fst).Nodup →
      ((lenv_add_builtins e).map Prod.fst).Nodup := by
    intro e h
    simp only [lenv_add_builtins, lenv_add_builtin]
    repeat apply lenv_put_nodup
    exact h
  refine ⟨hnew, lenv_put_nodup, ?_, ?_, hadd, ?_, hadd lenv_new hnew⟩
  · intro e k v hmem
    have h := congrArg List.length (lenv_put_names k v e)
    simpa [hmem] using h
  · intro e k v hmem
    have h := congrArg List.length (lenv_put_names k v e)
    simpa [hmem] using h
  · intro e e' a v h hdef
    rcases builtin_def_cases e a v e' hdef with ⟨_, he⟩ | ⟨_, names, vals, _, _, _, he⟩
    · rw [he]; exact h
    · rw [he]; exact def_loop_nodup names vals e h

/-- Witness of C22: rebinding `+` in the builtin environment keeps its eleven
entries, binding the new name `x` makes twelve, and `def {x x} 1 2` leaves one
entry named `x`. -/
theorem lenv_names_nodup_witness :
    (lenv_put builtin_env "+" (.num 1)).length = builtin_env.length
    ∧ (lenv_put builtin_env "x" (.num 1)).length = builtin_env.length + 1
    ∧ ((lenv_put (lenv_put builtin_env "x" (.num 1)) "x" (.num 2)).map Prod.fst).Nodup :=
  ⟨lenv_names_nodup.2.2.1 builtin_env "+" (.num 1) (by decide),
   lenv_names_nodup.2.2.2.1 builtin_env "x" (.num 1) (by decide),
   lenv_names_nodup.2.2.2.2.2.1 builtin_env _
     [.qexpr [.sym "x", .sym "x"], .num 1, .num 2] (.sexpr [])
     lenv_names_nodup.2.2.2.2.2.2 rfl⟩

/-- C30: `builtin_def` is atomic on failure: whenever it returns an Error the
environment is exactly the one it was given, every test being made before
the first `lenv_put`. -/
theorem builtin_def_atomic (e e' : lenv) (a : List LVal) (v : LVal)
    (h : builtin_def e a = .ok (v, e')) (hv : v.type = .LVAL_ERR) : e' = e := by
  rcases builtin_def_cases e a v e' h with ⟨_, he⟩ | ⟨hnil, _⟩
  · exact he
  · subst hnil
    simp [LVal.type] at hv

/-- Witness of C30: `def {x 1} 5 6`, whose first name is valid and second is
not, returns an Error and binds nothing: `x` stays unbound. -/
theorem builtin_def_atomic_witness :
    (∃ v : LVal, builtin_def builtin_env [.qexpr [.sym "x", .num 1], .num 5, .num 6]
      = .ok (v, builtin_env) ∧ v.type = .LVAL_ERR)
    ∧ builtin_env = builtin_env
    ∧ lenv_get builtin_env "x" = .err "unbound symbol 'x'" :=
  ⟨⟨lval_err "Function 'def' cannot define non-symbol!", rfl, lval_err_type _⟩,
   builtin_def_atomic builtin_env builtin_env
     [.qexpr [.sym "x", .num 1], .num 5, .num 6]
     (lval_err "Function 'def' cannot define non-symbol!") rfl (lval_err_type _),
   rfl⟩

/-- C25, refuted as stated: `builtin_list` applied to a list that holds an
Error returns the Q-expression of its arguments, the Error among them, not an
Error. -/
theorem builtin_list_error_argument_counterexample :
    builtin_list lenv_new [.num 1, .err "Division by zero!"]
      = .ok (.qexpr [.num 1, .err "Division by zero!"], lenv_new)
    ∧ (LVal.qexpr [.num 1, .err "Division by zero!"]).type ≠ .LVAL_ERR
    ∧ (LVal.err "Division by zero!").type = .LVAL_ERR :=
  ⟨rfl, by simp [LVal.type], rfl⟩

/-- C25, amended: each of `+`, `-`, `*`, `/`, `head`, `tail`, `join` and
`eval`, called with an argument list one of whose elements is an Error,
returns an Error and leaves the environment as it was, and so does `len` when
it is given more than one argument.  `list` makes no test: it returns the
Q-expression of its arguments, Errors included. -/
theorem builtin_error_argument (ev : lenv → LVal → Res) (e : lenv) (a : List LVal)
    (h : ∃ x ∈ a, x.type = .LVAL_ERR) :
    (∃ v, builtin_add e a = .ok (v, e) ∧ v.type = .LVAL_ERR)
    ∧ (∃ v, builtin_sub e a = .ok (v, e) ∧ v.type = .LVAL_ERR)
    ∧ (∃ v, builtin_mul e a = .ok (v, e) ∧ v.type = .LVAL_ERR)
    ∧ (∃ v, builtin_div e a = .ok (v, e) ∧ v.type = .LVAL_ERR)
    ∧ (∃ v, builtin_head e a = .ok (v, e) ∧ v.type = .LVAL_ERR)
    ∧ (∃ v, builtin_tail e a = .ok (v, e) ∧ v.type = .LVAL_ERR)
    ∧ (∃ v, builtin_join e a = .ok (v, e) ∧ v.type = .LVAL_ERR)
    ∧ (∃ v, builtin_eval ev e a = .ok (v, e) ∧ v.type = .LVAL_ERR)
    ∧ (a.length ≠ 1 → ∃ v, builtin_len e a = .ok (v, e) ∧ v.type = .LVAL_ERR)
    ∧ builtin_list e a = .ok (.qexpr a, e) := by
  obtain ⟨x, hx, hxe⟩ := h
  have hnum : ∃ y ∈ a, y.type ≠ .LVAL_NUM := ⟨x, hx, by rw [hxe]; decide⟩
  have hq : ∃ y ∈ a, y.type ≠ .LVAL_QEXPR := ⟨x, hx, by rw [hxe]; decide⟩
  have hop : ∀ op : String, ∃ v, builtin_op e a op = .ok (v, e) ∧ v.type = .LVAL_ERR := by
    intro op
    refine ⟨lval_err "Cannot operate on non-numbers!", ?_, rfl⟩
    simp only [builtin_op, any_of_mem_type_ne a .LVAL_NUM hnum, if_true, lassert_fail]
  have hone : ∀ y : LVal, a = [y] → y.type = .LVAL_ERR := by
    intro y hy
    subst hy
    rw [List.mem_singleton] at hx
    subst hx
    exact hxe
  refine ⟨hop "+", hop "-", hop "*", hop "/", ?_, ?_, ?_, ?_, ?_, rfl⟩
  · by_cases hlen : a.length = 1
    · obtain ⟨y, hy⟩ := List.length_eq_one.mp hlen
      have hye := hone y hy
      subst hy
      cases y with
      | err m => exact ⟨_, rfl, rfl⟩
      | num n => simp [LVal.type] at hye
      | sym s => simp [LVal.type] at hye
      | sexpr c => simp [LVal.type] at hye
      | qexpr c => simp [LVal.type] at hye
      | fn f => simp [LVal.type] at hye
      | err_cut m => exact ⟨_, rfl, rfl⟩
      | sym_cut s => simp [LVal.type] at hye
    · refine ⟨lval_err ("Function 'head' passed too many arguments! Got "
          ++ toString a.length ++ ", expected " ++ toString 1), ?_, lval_err_type _⟩
      simp only [builtin_head, hlen, ne_eq, not_false_eq_true, if_true, lassert_fail]
  · by_cases hlen : a.length = 1
    · obtain ⟨y, hy⟩ := List.length_eq_one.mp hlen
      have hye := hone y hy
      subst hy
      cases y with
      | err m => exact ⟨_, rfl, rfl⟩
      | num n => simp [LVal.type] at hye
      | sym s => simp [LVal.type] at hye
      | sexpr c => simp [LVal.type] at hye
      | qexpr c => simp [LVal.type] at hye
      | fn f => simp [LVal.type] at hye
      | err_cut m => exact ⟨_, rfl, rfl⟩
      | sym_cut s => simp [LVal.type] at hye
    · refine ⟨lval_err "Function 'tail' passed too many arguments!", ?_, rfl⟩
      simp only [builtin_tail, hlen, ne_eq, not_false_eq_true, if_true, lassert_fail]
  · refine ⟨lval_err "Function 'join' passed incorrect type!", ?_, rfl⟩
    simp only [builtin_join, any_of_mem_type_ne a .LVAL_QEXPR hq, if_true, lassert_fail]
  · by_cases hlen : a.length = 1
    · obtain ⟨y, hy⟩ := List.length_eq_one.mp hlen
      have hye := hone y hy
      subst hy
      cases y with
      | err m => exact ⟨_, rfl, rfl⟩
      | num n => simp [LVal.type] at hye
      | sym s => simp [LVal.type] at hye
      | sexpr c => simp [LVal.type] at hye
      | qexpr c => simp [LVal.type] at hye
      | fn f => simp [LVal.type] at hye
      | err_cut m => exact ⟨_, rfl, rfl⟩
      | sym_cut s => simp [LVal.type] at hye
    · refine ⟨lval_err "Function 'eval' passed too many arguments!", ?_, rfl⟩
      simp only [builtin_eval, hlen, ne_eq, not_false_eq_true, if_true, lassert_fail]
  · intro hlen
    refine ⟨lval_err "Function 'len' passed too many arguments!", ?_, rfl⟩
    simp only [builtin_len, hlen, ne_eq, not_false_eq_true, if_true, lassert_fail]

/-- Witness of the amended C25 on the argument list `1`, Error. -/
theorem builtin_error_argument_witness :
    (∃ v, builtin_add builtin_env [.num 1, .err "Division by zero!"]
        = .ok (v, builtin_env) ∧ v.type = .LVAL_ERR)
    ∧ (∃ v, builtin_join builtin_env [.num 1, .err "Division by zero!"]
        = .ok (v, builtin_env) ∧ v.type = .LVAL_ERR)
    ∧ (∃ v, builtin_len builtin_env [.num 1, .err "Division by zero!"]
        = .ok (v, builtin_env) ∧ v.type = .LVAL_ERR) :=
  ⟨(builtin_error_argument (lval_eval 1) builtin_env [.num 1, .err "Division by zero!"]
      ⟨.err "Division by zero!", by simp, rfl⟩).1,
   (builtin_error_argument (lval_eval 1) builtin_env [.num 1, .err "Division by zero!"]
      ⟨.err "Division by zero!", by simp, rfl⟩).2.2.2.2.2.2.1,
   (builtin_error_argument (lval_eval 1) builtin_env [.num 1, .err "Division by zero!"]
      ⟨.err "Division by zero!", by simp, rfl⟩).2.2.2.2.2.2.2.2.1 (by simp)⟩

/-- C24, on the side of the code: for every non-empty string the block
`lval_copy` allocates for the copy of an Error message or of a Symbol name is
two bytes shorter than what `strcpy` then writes into it; for the Symbol of
25 letters a block of `24` bytes, which the allocator does not round up,
receives `26`.  The copy of that Symbol is not the Symbol: its name is cut
after 24 letters.  So the copy of the Q-expression that holds it does not
evaluate to what the Q-expression evaluates to, and after
`def {x} {abcdefghijklmnopqrstuvwxy}` the evaluation of `x` returns a
Q-expression that holds the cut name.  The copy of a Symbol is the Symbol
exactly when its name has fewer than 24 characters or a length that is
neither 8 nor 9 modulo 16; the copy of a value is the value itself, as the
law asks, whenever `lval_copy` has room for every string in it, and it always
carries the tag of the value. -/
theorem lval_copy_string_overflow :
    (∀ s : String, s ≠ "" → lval_copy_malloc s + 2 = strcpy_bytes s)
    ∧ lval_copy_malloc "abcdefghijklmnopqrstuvwxy" = 24
    ∧ malloc_usable_size 24 = 24
    ∧ strcpy_bytes "abcdefghijklmnopqrstuvwxy" = 26
    ∧ lval_copy (.sym "abcdefghijklmnopqrstuvwxy") = .sym_cut "abcdefghijklmnopqrstuvwx"
    ∧ lval_copy (.sym "abcdefghijklmnopqrstuvwxy") ≠ .sym "abcdefghijklmnopqrstuvwxy"
    ∧ lval_eval 1 builtin_env (.qexpr [.sym "abcdefghijklmnopqrstuvwxy"])
        = .ok (.qexpr [.sym "abcdefghijklmnopqrstuvwxy"], builtin_env)
    ∧ lval_eval 1 builtin_env (lval_copy (.qexpr [.sym "abcdefghijklmnopqrstuvwxy"]))
        = .ok (.qexpr [.sym_cut "abcdefghijklmnopqrstuvwx"], builtin_env)
    ∧ lval_eval 3 builtin_env
        (.sexpr [.sym "def", .qexpr [.sym "x"], .qexpr [.sym "abcdefghijklmnopqrstuvwxy"]])
        = .ok (.sexpr [],
            lenv_put builtin_env "x" (.qexpr [.sym "abcdefghijklmnopqrstuvwxy"]))
    ∧ lval_eval 1 (lenv_put builtin_env "x" (.qexpr [.sym "abcdefghijklmnopqrstuvwxy"]))
        (.sym "x")
        = .ok (.qexpr [.sym_cut "abcdefghijklmnopqrstuvwx"],
            lenv_put builtin_env "x" (.qexpr [.sym "abcdefghijklmnopqrstuvwxy"]))
    ∧ (∀ s : String, lval_copy (.sym s) = .sym s ↔
        (s.data.length < 24 ∨ (s.data.length % 16 ≠ 8 ∧ s.data.length % 16 ≠ 9)))
    ∧ (∀ v : LVal, lval_fits v = true → lval_copy v = v)
    ∧ (∀ v : LVal, (lval_copy v).type = v.type) := by
  refine ⟨?_, by decide, by decide, by decide, rfl, ?_, rfl, rfl, rfl, rfl, ?_, lval_copy_id,
    lval_copy_type⟩
  · intro s hs
    have hdata : s.data ≠ [] := by
      intro h
      apply hs
      exact String.ext h
    unfold lval_copy_malloc strcpy_bytes
    cases hd : s.data with
    | nil => exact absurd hd hdata
    | cons c cs => simp
  · have h : lval_copy (.sym "abcdefghijklmnopqrstuvwxy")
        = .sym_cut "abcdefghijklmnopqrstuvwx" := rfl
    rw [h]
    intro hc
    cases hc
  · intro s
    rw [← string_fits_iff]
    by_cases hfit : string_fits s = true
    · simp only [lval_copy, hfit, if_true]
    · rw [lval_copy, if_neg hfit]
      constructor
      · intro hc
        cases hc
      · intro hc
        exact absurd hc hfit

theorem lval_eval_with_eq (call : (lenv → LVal → Res) → LBuiltin → lenv → List LVal → Res)
    (hcall : ∀ (ev : lenv → LVal → Res) (b : LBuiltin) (e : lenv) (a : List LVal),
      a ≠ [] → call ev b e a = lval_call ev b e a) :
    ∀ (fuel : Nat) (e : lenv) (v : LVal), lval_eval_with call fuel e v = lval_eval fuel e v := by
  intro fuel
  induction fuel with
  | zero => intro e v; rfl
  | succ n ih =>
    intro e v
    have hev : lval_eval_with call n = lval_eval n := by
      funext e1 v1
      exact ih e1 v1
    cases v with
    | num _ => rfl
    | err _ => rfl
    | sym _ => rfl
    | qexpr _ => rfl
    | fn _ => rfl
    | sexpr cell =>
      simp only [lval_eval_with, lval_eval, hev, lval_eval_sexpr_with, lval_eval_sexpr]
      cases hc : eval_cells (lval_eval n) e cell with
      | error f => rfl
      | ok r =>
        obtain ⟨cell', e'⟩ := r
        simp only []
        cases hf : first_err cell' with
        | some x => rfl
        | none =>
          simp only []
          cases cell' with
          | nil => rfl
          | cons f args =>
            cases args with
            | nil => rfl
            | cons a rest =>
              cases f with
              | fn b => exact hcall (lval_eval n) b e' (a :: rest) (by simp)
              | num _ => rfl
              | err _ => rfl
              | sym _ => rfl
              | sexpr _ => rfl
              | qexpr _ => rfl
              | err_cut _ => rfl
              | sym_cut _ => rfl
    | err_cut _ => rfl
    | sym_cut _ => rfl

/-- C28: the evaluator never calls a Function with an empty argument list.
`builtin_def`, `builtin_op` and `builtin_join` index cell `0` of their
argument and have no defined result on the empty list, yet whatever a
function pointer does on the empty list (`call` is any dispatch that agrees
with the builtins on non-empty lists) evaluation is the same, at every depth,
in every environment, on every value, through `builtin_eval` included; and
an S-expression whose only evaluated child is a Function returns it
uncalled. -/
theorem lval_eval_never_calls_on_empty :
    (∀ (call : (lenv → LVal → Res) → LBuiltin → lenv → List LVal → Res),
      (∀ (ev : lenv → LVal → Res) (b : LBuiltin) (e : lenv) (a : List LVal),
        a ≠ [] → call ev b e a = lval_call ev b e a) →
      ∀ (fuel : Nat) (e : lenv) (v : LVal),
        lval_eval_with call fuel e v = lval_eval fuel e v)
    ∧ (∀ (fuel : Nat) (e : lenv) (v : LVal),
        lval_eval_with lval_call fuel e v = lval_eval fuel e v)
    ∧ (∀ e : lenv, builtin_def e [] = .error .undefined)
    ∧ (∀ (e : lenv) (op : String), builtin_op e [] op = .error .undefined)
    ∧ (∀ e : lenv, builtin_join e [] = .error .undefined)
    ∧ (∀ (ev : lenv → LVal → Res) (e e' : lenv) (cell : List LVal) (f : LBuiltin),
        eval_cells ev e cell = .ok ([.fn f], e') →
        lval_eval_sexpr ev e cell = .ok (.fn f, e')) := by
  refine ⟨lval_eval_with_eq, lval_eval_with_eq lval_call (fun _ _ _ _ _ => rfl),
    fun _ => rfl, fun _ _ => rfl, fun _ => rfl, ?_⟩
  intro ev e e' cell f h
  simp [lval_eval_sexpr, h, first_err, LVal.type]

/-- Witness of C28: with a dispatch that returns `0` on every empty argument
list, `(+)` and `(eval {list})` still evaluate as with the builtins. -/
theorem lval_eval_never_calls_on_empty_witness :
    lval_eval_with
        (fun ev b e a => match a with
          | [] => .ok (.num 0, e)
          | _ :: _ => lval_call ev b e a)
        3 builtin_env (.sexpr [.sym "eval", .qexpr [.sym "list"]])
      = lval_eval 3 builtin_env (.sexpr [.sym "eval", .qexpr [.sym "list"]])
    ∧ lval_eval 3 builtin_env (.sexpr [.sym "eval", .qexpr [.sym "list"]])
      = .ok (.fn .list, builtin_env) :=
  ⟨lval_eval_never_calls_on_empty.1
      (fun ev b e a => match a with
        | [] => .ok (.num 0, e)
        | _ :: _ => lval_call ev b e a)
      (by
        intro ev b e a ha
        cases a with
        | nil => exact absurd rfl ha
        | cons x rest => rfl)
      3 builtin_env (.sexpr [.sym "eval", .qexpr [.sym "list"]]),
   rfl⟩

theorem ok_lval_err_inv (msg : String) (e e' : lenv) (r : LVal)
    (h : (Except.ok (lval_err msg, e) : Res) = .ok (r, e')) :
    e' = e ∧ r.type = .LVAL_ERR := by
  injection h with h
  injection h with hr he
  subst hr
  exact ⟨he.symm, lval_err_type _⟩

theorem builtin_head_shape (e e' : lenv) (a : List LVal) (r : LVal)
    (h : builtin_head e a = .ok (r, e')) :
    e' = e ∧ (r.type = .LVAL_NUM ∨ r.type = .LVAL_ERR ∨ r.type = .LVAL_QEXPR) := by
  unfold builtin_head lassert_fail at h
  repeat' split at h
  all_goals first
    | (cases h; done)
    | (injection h with h; injection h with hr he; subst hr
       exact ⟨he.symm, by
         first
           | exact Or.inr (Or.inl (lval_err_type _))
           | simp [LVal.type, lval_num]⟩)

theorem builtin_tail_shape (e e' : lenv) (a : List LVal) (r : LVal)
    (h : builtin_tail e a = .ok (r, e')) :
    e' = e ∧ (r.type = .LVAL_NUM ∨ r.type = .LVAL_ERR ∨ r.type = .LVAL_QEXPR) := by
  unfold builtin_tail lassert_fail at h
  repeat' split at h
  all_goals first
    | (cases h; done)
    | (injection h with h; injection h with hr he; subst hr
       exact ⟨he.symm, by
         first
           | exact Or.inr (Or.inl (lval_err_type _))
           | simp [LVal.type, lval_num]⟩)

theorem builtin_len_shape (e e' : lenv) (a : List LVal) (r : LVal)
    (h : builtin_len e a = .ok (r, e')) :
    e' = e ∧ (r.type = .LVAL_NUM ∨ r.type = .LVAL_ERR ∨ r.type = .LVAL_QEXPR) := by
  unfold builtin_len lassert_fail at h
  repeat' split at h
  all_goals first
    | (cases h; done)
    | (injection h with h; injection h with hr he; subst hr
       exact ⟨he.symm, by
         first
           | exact Or.inr (Or.inl (lval_err_type _))
           | simp [LVal.type, lval_num]⟩)

theorem builtin_join_shape (e e' : lenv) (a : List LVal) (r : LVal)
    (h : builtin_join e a = .ok (r, e')) :
    e' = e ∧ (r.type = .LVAL_NUM ∨ r.type = .LVAL_ERR ∨ r.type = .LVAL_QEXPR) := by
  unfold builtin_join lassert_fail at h
  repeat' split at h
  all_goals first
    | (cases h; done)
    | (injection h with h; injection h with hr he; subst hr
       exact ⟨he.symm, by
         first
           | exact Or.inr (Or.inl (lval_err_type _))
           | simp [LVal.type, lval_num]⟩)

theorem op_loop_shape (op : String) (l : List LVal) :
    ∀ (x : Int) (r : LVal), op_loop op x l = .ok r →
      r.type = .LVAL_NUM ∨ r.type = .LVAL_ERR := by
  induction l with
  | nil =>
    intro x r h
    simp only [op_loop] at h
    injection h with h
    subst h
    exact Or.inl rfl
  | cons c rest ih =>
    intro x r h
    cases c with
    | num y =>
      simp only [op_loop] at h
      repeat' split at h
      all_goals first
        | exact ih _ r h
        | (cases h; done)
        | (injection h with h; subst h; exact Or.inr (lval_err_type _))
    | err _ => simp [op_loop] at h
    | sym _ => simp [op_loop] at h
    | sexpr _ => simp [op_loop] at h
    | qexpr _ => simp [op_loop] at h
    | fn _ => simp [op_loop] at h
    | err_cut _ => simp [op_loop] at h
    | sym_cut _ => simp [op_loop] at h

theorem builtin_op_shape (e e' : lenv) (a : List LVal) (op : String) (r : LVal)
    (h : builtin_op e a op = .ok (r, e')) :
    e' = e ∧ (r.type = .LVAL_NUM ∨ r.type = .LVAL_ERR ∨ r.type = .LVAL_QEXPR) := by
  unfold builtin_op lassert_fail at h
  split at h
  · obtain ⟨h1, h2⟩ := ok_lval_err_inv _ _ _ _ h
    exact ⟨h1, Or.inr (Or.inl h2)⟩
  · split at h
    · cases h
    · split at h
      · rename_i r' hloop
        injection h with h
        injection h with hr he
        subst hr
        rcases op_loop_shape _ _ _ _ hloop with h1 | h1
        · exact ⟨he.symm, Or.inl h1⟩
        · exact ⟨he.symm, Or.inr (Or.inl h1)⟩
      · cases h
    · cases h

theorem lenv_get_inv (R S : LVal → Prop) (hSR : ∀ v, S v → R (lval_copy v))
    (hErr : ∀ v : LVal, v.type = .LVAL_ERR → R v)
    (s : String) : ∀ e : lenv, (∀ p ∈ e, S p.2) → R (lenv_get e s) := by
  intro e
  induction e with
  | nil => intro _; exact hErr _ (lval_err_type _)
  | cons p rest ih =>
    intro he
    obtain ⟨k, x⟩ := p
    by_cases h : k = s
    · simp only [lenv_get, h, if_true]
      exact hSR x (he (k, x) (List.mem_cons_self _ _))
    · simp only [lenv_get, h, if_false]
      exact ih (fun q hq => he q (List.mem_cons_of_mem _ hq))

theorem lenv_put_inv (S : LVal → Prop) (hcopy : ∀ v, S v → S (lval_copy v))
    (k : String) (v : LVal) (hv : S v) :
    ∀ e : lenv, (∀ p ∈ e, S p.2) → ∀ p ∈ lenv_put e k v, S p.2 := by
  intro e
  induction e with
  | nil =>
    intro _ p hp
    simp only [lenv_put, List.mem_singleton] at hp
    subst hp
    exact hcopy v hv
  | cons q rest ih =>
    intro he p hp
    obtain ⟨s, x⟩ := q
    by_cases h : s = k
    · simp only [lenv_put, h, if_true, List.mem_cons] at hp
      rcases hp with hp | hp
      · subst hp
        exact hcopy v hv
      · exact he p (List.mem_cons_of_mem _ hp)
    · simp only [lenv_put, h, if_false, List.mem_cons] at hp
      rcases hp with hp | hp
      · subst hp
        exact he (s, x) (List.mem_cons_self _ _)
      · exact ih (fun q hq => he q (List.mem_cons_of_mem _ hq)) p hp

theorem def_loop_inv (S : LVal → Prop) (hcopy : ∀ v, S v → S (lval_copy v))
    (names : List LVal) :
    ∀ (vals : List LVal) (e : lenv), (∀ p ∈ e, S p.2) → (∀ v ∈ vals, S v) →
      ∀ p ∈ def_loop e names vals, S p.2 := by
  induction names with
  | nil => intro vals e he _; simpa [def_loop] using he
  | cons n rest ih =>
    intro vals e he hvals
    cases vals with
    | nil => cases n <;> simpa [def_loop] using he
    | cons v vs =>
      cases n with
      | sym k =>
        simp only [def_loop]
        exact ih vs _ (lenv_put_inv S hcopy k v (hvals v (List.mem_cons_self _ _)) e he)
          (fun w hw => hvals w (List.mem_cons_of_mem _ hw))
      | num _ => simpa [def_loop] using he
      | err _ => simpa [def_loop] using he
      | sexpr _ => simpa [def_loop] using he
      | qexpr _ => simpa [def_loop] using he
      | fn _ => simpa [def_loop] using he
      | err_cut _ => simpa [def_loop] using he
      | sym_cut _ => simpa [def_loop] using he

theorem eval_cells_inv (R S : LVal → Prop) (ev : lenv → LVal → Res) (cs : List LVal) :
    (∀ c ∈ cs, ∀ (e : lenv) (r : LVal) (e' : lenv), (∀ p ∈ e, S p.2) →
        ev e c = .ok (r, e') → R r ∧ ∀ p ∈ e', S p.2) →
    ∀ (e e' : lenv) (cs' : List LVal), (∀ p ∈ e, S p.2) →
      eval_cells ev e cs = .ok (cs', e') → (∀ r ∈ cs', R r) ∧ ∀ p ∈ e', S p.2 := by
  induction cs with
  | nil =>
    intro _ e e' cs' he h
    simp only [eval_cells] at h
    injection h with h
    injection h with h1 h2
    subst h1
    subst h2
    exact ⟨fun r hr => absurd hr (List.not_mem_nil r), he⟩
  | cons c rest ih =>
    intro hgood e e' cs' he h
    simp only [eval_cells] at h
    cases hc : ev e c with
    | error f => simp [hc] at h
    | ok r0 =>
      obtain ⟨c', e1⟩ := r0
      simp only [hc] at h
      obtain ⟨hRc, he1⟩ := hgood c (List.mem_cons_self _ _) e c' e1 he hc
      cases hcs : eval_cells ev e1 rest with
      | error f => simp [hcs] at h
      | ok r1 =>
        obtain ⟨rest', e2⟩ := r1
        simp only [hcs] at h
        injection h with h
        injection h with h1 h2
        subst h1
        subst h2
        obtain ⟨hRrest, he2⟩ :=
          ih (fun d hd => hgood d (List.mem_cons_of_mem _ hd)) e1 e2 rest' he1 hcs
        refine ⟨?_, he2⟩
        intro r hr
        rcases List.mem_cons.mp hr with hr | hr
        · subst hr; exact hRc
        · exact hRrest r hr

theorem rel_of_type (R : LVal → Prop) (hErr : ∀ v : LVal, v.type = .LVAL_ERR → R v)
    (hNum : ∀ n, R (.num n))
    (hQ : ∀ c, R (.qexpr c)) (r : LVal)
    (h : r.type = .LVAL_NUM ∨ r.type = .LVAL_ERR ∨ r.type = .LVAL_QEXPR) : R r := by
  cases r with
  | num n => exact hNum n
  | err m => exact hErr _ rfl
  | qexpr c => exact hQ c
  | sym s => simp [LVal.type] at h
  | sexpr c => simp [LVal.type] at h
  | fn f => simp [LVal.type] at h
  | err_cut m => exact hErr _ rfl
  | sym_cut s => simp [LVal.type] at h

theorem lval_call_inv (R S : LVal → Prop) (hcopy : ∀ v, S v → S (lval_copy v))
    (hErr : ∀ v : LVal, v.type = .LVAL_ERR → R v) (hNum : ∀ n, R (.num n))
    (hQ : ∀ c, R (.qexpr c)) (hNil : R (.sexpr []))
    (ev : lenv → LVal → Res) (b : LBuiltin) (hb : b ≠ .eval)
    (e e' : lenv) (a : List LVal) (r : LVal)
    (he : ∀ p ∈ e, S p.2) (ha : ∀ x ∈ a, S x)
    (h : lval_call ev b e a = .ok (r, e')) : R r ∧ ∀ p ∈ e', S p.2 := by
  have hshape : (e' = e ∧ (r.type = .LVAL_NUM ∨ r.type = .LVAL_ERR ∨ r.type = .LVAL_QEXPR)) →
      R r ∧ ∀ p ∈ e', S p.2 := by
    rintro ⟨h1, h2⟩
    subst h1
    exact ⟨rel_of_type R hErr hNum hQ r h2, he⟩
  cases b with
  | eval => exact absurd rfl hb
  | list =>
    simp only [lval_call, builtin_list] at h
    injection h with h
    injection h with h1 h2
    subst h1
    subst h2
    exact ⟨hQ a, he⟩
  | head => exact hshape (builtin_head_shape e e' a r h)
  | tail => exact hshape (builtin_tail_shape e e' a r h)
  | join => exact hshape (builtin_join_shape e e' a r h)
  | len => exact hshape (builtin_len_shape e e' a r h)
  | add => exact hshape (builtin_op_shape e e' a "+" r h)
  | sub => exact hshape (builtin_op_shape e e' a "-" r h)
  | mul => exact hshape (builtin_op_shape e e' a "*" r h)
  | div => exact hshape (builtin_op_shape e e' a "/" r h)
  | define =>
    rcases builtin_def_cases e a r e' h with ⟨hr, he'⟩ | ⟨hr, names, vals, hcons, _, _, he'⟩
    · exact hshape ⟨he', Or.inr (Or.inl hr)⟩
    · subst hr
      subst he'
      refine ⟨hNil, def_loop_inv S hcopy names vals e he ?_⟩
      intro v hv
      exact ha v (by rw [hcons]; exact List.mem_cons_of_mem _ hv)

theorem builtin_eval_cases (ev : lenv → LVal → Res) (e e' : lenv) (a : List LVal) (r : LVal)
    (h : builtin_eval ev e a = .ok (r, e')) :
    (e' = e ∧ r.type = .LVAL_ERR)
    ∨ ∃ cell : List LVal, a = [.qexpr cell] ∧ ev e (.sexpr cell) = .ok (r, e') := by
  unfold builtin_eval lassert_fail at h
  split at h
  · exact Or.inl (ok_lval_err_inv _ _ _ _ h)
  · rename_i hlen
    have hlen1 : a.length = 1 := by
      by_contra hne
      exact hlen hne
    obtain ⟨x, hx⟩ := List.length_eq_one.mp hlen1
    subst hx
    cases x with
    | qexpr cell => exact Or.inr ⟨cell, rfl, h⟩
    | num _ => exact Or.inl (ok_lval_err_inv _ _ _ _ h)
    | err _ => exact Or.inl (ok_lval_err_inv _ _ _ _ h)
    | sym _ => exact Or.inl (ok_lval_err_inv _ _ _ _ h)
    | sexpr _ => exact Or.inl (ok_lval_err_inv _ _ _ _ h)
    | fn _ => exact Or.inl (ok_lval_err_inv _ _ _ _ h)
    | err_cut _ => exact Or.inl (ok_lval_err_inv _ _ _ _ h)
    | sym_cut _ => exact Or.inl (ok_lval_err_inv _ _ _ _ h)

theorem lval_eval_sexpr_inv (R S : LVal → Prop) (hRS : ∀ v, R v → v.type ≠ .LVAL_ERR → S v)
    (hcopy : ∀ v, S v → S (lval_copy v))
    (hErr : ∀ v : LVal, v.type = .LVAL_ERR → R v) (hNum : ∀ n, R (.num n))
    (hQ : ∀ c, R (.qexpr c)) (hNil : R (.sexpr []))
    (ev : lenv → LVal → Res) (cs : List LVal)
    (hgood : ∀ c ∈ cs, ∀ (e : lenv) (r : LVal) (e' : lenv), (∀ p ∈ e, S p.2) →
        ev e c = .ok (r, e') → R r ∧ ∀ p ∈ e', S p.2)
    (hEval : R (.fn .eval) → ∀ (e : lenv) (cell : List LVal) (r : LVal) (e' : lenv),
        (∀ p ∈ e, S p.2) → ev e (.sexpr cell) = .ok (r, e') → R r ∧ ∀ p ∈ e', S p.2)
    (e e' : lenv) (r : LVal) (he : ∀ p ∈ e, S p.2)
    (h : lval_eval_sexpr ev e cs = .ok (r, e')) : R r ∧ ∀ p ∈ e', S p.2 := by
  simp only [lval_eval_sexpr] at h
  cases hc : eval_cells ev e cs with
  | error f => simp [hc] at h
  | ok r0 =>
    obtain ⟨cs', e1⟩ := r0
    simp only [hc] at h
    obtain ⟨hRcs, he1⟩ := eval_cells_inv R S ev cs hgood e e1 cs' he hc
    cases hf : first_err cs' with
    | some x =>
      simp only [hf] at h
      injection h with h
      injection h with h1 h2
      subst h1
      subst h2
      exact ⟨rel_of_type R hErr hNum hQ x (Or.inr (Or.inl (first_err_type cs' x hf))), he1⟩
    | none =>
      simp only [hf] at h
      have hnoerr := (first_err_none_iff cs').mp hf
      cases cs' with
      | nil =>
        injection h with h
        injection h with h1 h2
        subst h1
        subst h2
        exact ⟨hNil, he1⟩
      | cons f args =>
        cases args with
        | nil =>
          injection h with h
          injection h with h1 h2
          subst h1
          subst h2
          exact ⟨hRcs f (List.mem_cons_self _ _), he1⟩
        | cons a rest =>
          have hargs : ∀ x ∈ a :: rest, S x := by
            intro x hx
            have hmem : x ∈ f :: a :: rest := List.mem_cons_of_mem _ hx
            exact hRS x (hRcs x hmem) (hnoerr x hmem)
          cases f with
          | fn b =>
            simp only [] at h
            by_cases hb : b = .eval
            · subst hb
              have hRf : R (.fn .eval) := hRcs _ (List.mem_cons_self _ _)
              rcases builtin_eval_cases ev e1 e' (a :: rest) r h with ⟨h1, h2⟩ | ⟨cell, _, h2⟩
              · subst h1
                exact ⟨rel_of_type R hErr hNum hQ r (Or.inr (Or.inl h2)), he1⟩
              · exact hEval hRf e1 cell r e' he1 h2
            · exact lval_call_inv R S hcopy hErr hNum hQ hNil ev b hb e1 e' (a :: rest) r he1
                hargs h
          | num _ =>
            obtain ⟨h1, h2⟩ := ok_lval_err_inv _ _ _ _ h
            subst h1
            exact ⟨rel_of_type R hErr hNum hQ r (Or.inr (Or.inl h2)), he1⟩
          | err _ =>
            obtain ⟨h1, h2⟩ := ok_lval_err_inv _ _ _ _ h
            subst h1
            exact ⟨rel_of_type R hErr hNum hQ r (Or.inr (Or.inl h2)), he1⟩
          | sym _ =>
            obtain ⟨h1, h2⟩ := ok_lval_err_inv _ _ _ _ h
            subst h1
            exact ⟨rel_of_type R hErr hNum hQ r (Or.inr (Or.inl h2)), he1⟩
          | sexpr _ =>
            obtain ⟨h1, h2⟩ := ok_lval_err_inv _ _ _ _ h
            subst h1
            exact ⟨rel_of_type R hErr hNum hQ r (Or.inr (Or.inl h2)), he1⟩
          | qexpr _ =>
            obtain ⟨h1, h2⟩ := ok_lval_err_inv _ _ _ _ h
            subst h1
            exact ⟨rel_of_type R hErr hNum hQ r (Or.inr (Or.inl h2)), he1⟩
          | err_cut _ =>
            obtain ⟨h1, h2⟩ := ok_lval_err_inv _ _ _ _ h
            subst h1
            exact ⟨rel_of_type R hErr hNum hQ r (Or.inr (Or.inl h2)), he1⟩
          | sym_cut _ =>
            obtain ⟨h1, h2⟩ := ok_lval_err_inv _ _ _ _ h
            subst h1
            exact ⟨rel_of_type R hErr hNum hQ r (Or.inr (Or.inl h2)), he1⟩

theorem lval_normal_of_storable (v : LVal) (h : lval_storable v) : lval_normal v := by
  unfold lval_storable at h
  unfold lval_normal
  rcases h with h | h | h | h
  · exact Or.inl h
  · exact Or.inr (Or.inr (Or.inl h))
  · exact Or.inr (Or.inr (Or.inr (Or.inl h)))
  · exact Or.inr (Or.inr (Or.inr (Or.inr h)))

theorem lval_storable_of_normal (v : LVal) (h : lval_normal v) (hne : v.type ≠ .LVAL_ERR) :
    lval_storable v := by
  unfold lval_normal at h
  unfold lval_storable
  rcases h with h | h | h | h | h
  · exact Or.inl h
  · exact absurd h hne
  · exact Or.inr (Or.inl h)
  · exact Or.inr (Or.inr (Or.inl h))
  · exact Or.inr (Or.inr (Or.inr h))

theorem lval_copy_storable (v : LVal) (h : lval_storable v) : lval_storable (lval_copy v) := by
  unfold lval_storable at h
  unfold lval_storable
  rcases h with h | h | h | h
  · exact Or.inl (by rw [lval_copy_type, h])
  · exact Or.inr (Or.inl (by rw [lval_copy_type, h]))
  · exact Or.inr (Or.inr (Or.inl (by rw [lval_copy_type, h])))
  · exact Or.inr (Or.inr (Or.inr (by rw [h, lval_copy_sexpr_nil])))

theorem lval_eval_inv_normal (fuel : Nat) :
    ∀ (e : lenv) (v : LVal) (r : LVal) (e' : lenv), (∀ p ∈ e, lval_storable p.2) →
      lval_eval fuel e v = .ok (r, e') → lval_normal r ∧ ∀ p ∈ e', lval_storable p.2 := by
  have hErr : ∀ v : LVal, v.type = .LVAL_ERR → lval_normal v := fun _ h => Or.inr (Or.inl h)
  have hNum : ∀ n, lval_normal (.num n) := fun n => Or.inl rfl
  have hQ : ∀ c, lval_normal (.qexpr c) := fun c => Or.inr (Or.inr (Or.inl rfl))
  have hFn : ∀ f, lval_normal (.fn f) := fun f => Or.inr (Or.inr (Or.inr (Or.inl rfl)))
  have hNil : lval_normal (.sexpr []) := Or.inr (Or.inr (Or.inr (Or.inr rfl)))
  induction fuel with
  | zero => intro e v r e' _ h; simp [lval_eval] at h
  | succ n ih =>
    intro e v r e' he h
    cases v with
    | sym s =>
      simp only [lval_eval] at h
      injection h with h
      injection h with h1 h2
      subst h1
      subst h2
      exact ⟨lenv_get_inv lval_normal lval_storable
        (fun v hv => lval_normal_of_storable _ (lval_copy_storable v hv)) hErr s e he, he⟩
    | sexpr cs =>
      simp only [lval_eval] at h
      exact lval_eval_sexpr_inv lval_normal lval_storable lval_storable_of_normal
        lval_copy_storable hErr hNum hQ
        hNil (lval_eval n) cs (fun c _ e1 r1 e1' => ih e1 c r1 e1')
        (fun _ e1 cell r1 e1' => ih e1 (.sexpr cell) r1 e1') e e' r he h
    | num x =>
      simp only [lval_eval] at h
      injection h with h
      injection h with h1 h2
      subst h1
      subst h2
      exact ⟨hNum x, he⟩
    | err m =>
      simp only [lval_eval] at h
      injection h with h
      injection h with h1 h2
      subst h1
      subst h2
      exact ⟨hErr _ rfl, he⟩
    | qexpr c =>
      simp only [lval_eval] at h
      injection h with h
      injection h with h1 h2
      subst h1
      subst h2
      exact ⟨hQ c, he⟩
    | fn f =>
      simp only [lval_eval] at h
      injection h with h
      injection h with h1 h2
      subst h1
      subst h2
      exact ⟨hFn f, he⟩
    | err_cut m =>
      simp only [lval_eval] at h
      injection h with h
      injection h with h1 h2
      subst h1
      subst h2
      exact ⟨hErr _ rfl, he⟩
    | sym_cut s => simp [lval_eval] at h

theorem lval_eval_of_normal (fuel : Nat) (e : lenv) (r : LVal) (h : lval_normal r) :
    lval_eval (fuel + 1) e r = .ok (r, e) := by
  cases r with
  | num _ => rfl
  | err _ => rfl
  | qexpr _ => rfl
  | fn _ => rfl
  | sym s =>
    unfold lval_normal at h
    simp [LVal.type] at h
  | sexpr c =>
    unfold lval_normal at h
    simp only [LVal.type] at h
    rcases h with h | h | h | h | h
    · cases h
    · cases h
    · cases h
    · cases h
    · injection h with h
      subst h
      rfl
  | err_cut _ => rfl
  | sym_cut s =>
    unfold lval_normal at h
    simp [LVal.type] at h

/-- C29: evaluation returns normal forms.  If every value stored in the
environment is a Number, a Q-expression, a Function or the empty
S-expression, then whenever `lval_eval` returns a value `r` and an
environment, `r` is a Number, an Error, a Q-expression, a Function or the
empty S-expression (never a Symbol, never a non-empty S-expression), the
environment again stores only Numbers, Q-expressions, Functions and empty
S-expressions (never an Error or a Symbol), and `r` evaluates to itself
there. -/
theorem lval_eval_normal_form (fuel : Nat) (e e' : lenv) (v r : LVal)
    (henv : ∀ p ∈ e, lval_storable p.2) (h : lval_eval fuel e v = .ok (r, e')) :
    lval_normal r
    ∧ r.type ≠ .LVAL_SYM
    ∧ (∀ (c : LVal) (cs : List LVal), r ≠ .sexpr (c :: cs))
    ∧ (∀ p ∈ e', lval_storable p.2)
    ∧ (∀ p ∈ e', p.2.type ≠ .LVAL_ERR ∧ p.2.type ≠ .LVAL_SYM)
    ∧ (∀ fuel' : Nat, lval_eval (fuel' + 1) e' r = .ok (r, e')) := by
  obtain ⟨hr, he'⟩ := lval_eval_inv_normal fuel e v r e' henv h
  refine ⟨hr, ?_, ?_, he', ?_, fun fuel' => lval_eval_of_normal fuel' e' r hr⟩
  · intro hs
    unfold lval_normal at hr
    rcases hr with h1 | h1 | h1 | h1 | h1
    · rw [hs] at h1; cases h1
    · rw [hs] at h1; cases h1
    · rw [hs] at h1; cases h1
    · rw [hs] at h1; cases h1
    · subst h1; cases hs
  · intro c cs hc
    subst hc
    unfold lval_normal at hr
    simp [LVal.type] at hr
  · intro p hp
    have hs := he' p hp
    unfold lval_storable at hs
    rcases hs with h1 | h1 | h1 | h1
    · rw [h1]; exact ⟨by decide, by decide⟩
    · rw [h1]; exact ⟨by decide, by decide⟩
    · rw [h1]; exact ⟨by decide, by decide⟩
    · rw [h1]; exact ⟨by decide, by decide⟩

theorem builtin_env_storable : ∀ p ∈ builtin_env, lval_storable p.2 := by
  have hlist : builtin_env
      = [("list", .fn .list), ("head", .fn .head), ("tail", .fn .tail), ("eval", .fn .eval),
         ("join", .fn .join), ("len", .fn .len), ("def", .fn .define), ("+", .fn .add),
         ("-", .fn .sub), ("*", .fn .mul), ("/", .fn .div)] := rfl
  intro p hp
  rw [hlist] at hp
  simp only [List.mem_cons, List.mem_singleton, List.not_mem_nil, or_false] at hp
  rcases hp with h | h | h | h | h | h | h | h | h | h | h <;>
    (subst h; exact Or.inr (Or.inr (Or.inl rfl)))

theorem mem_of_lookup (s : String) (v : LVal) :
    ∀ e : lenv, List.lookup s e = some v → (s, v) ∈ e := by
  intro e
  induction e with
  | nil => intro h; simp at h
  | cons p rest ih =>
    intro h
    obtain ⟨k, x⟩ := p
    by_cases hk : s = k
    · subst hk
      simp only [List.lookup_cons, beq_self_eq_true, Option.some.injEq] at h
      subst h
      exact List.mem_cons_self _ _
    · have hb : (s == k) = false := by simpa using hk
      simp only [List.lookup_cons, hb] at h
      exact List.mem_cons_of_mem _ (ih h)

theorem lenv_reachable_storable (e : lenv) (h : lenv_reachable e) :
    ∀ p ∈ e, lval_storable p.2 := by
  induction h with
  | start => exact builtin_env_storable
  | step fuel e e' v r _ hev ih => exact (lval_eval_inv_normal fuel e v r e' ih hev).2

/-- C23: evaluation of a Number or of a bound Symbol is idempotent in every
environment reached from the builtin one, and more generally in every
environment that stores only Numbers, Q-expressions, Functions and empty
S-expressions, as all of those do.  A Number evaluates to itself.  A Symbol
bound to `v` evaluates to the `lval_copy` of `v` and leaves the environment
as it was, and that copy evaluates to itself there. -/
theorem lval_eval_idempotent (fuel : Nat) (e : lenv)
    (henv : lenv_reachable e ∨ ∀ p ∈ e, lval_storable p.2) :
    (∀ n : Int, lval_eval (fuel + 1) e (.num n) = .ok (.num n, e))
    ∧ (∀ (s : String) (v : LVal), List.lookup s e = some v →
        lval_eval (fuel + 1) e (.sym s) = .ok (lval_copy v, e)
        ∧ lval_eval (fuel + 1) e (lval_copy v) = .ok (lval_copy v, e)) := by
  have hst : ∀ p ∈ e, lval_storable p.2 := by
    rcases henv with h | h
    · exact lenv_reachable_storable e h
    · exact h
  refine ⟨fun _ => rfl, ?_⟩
  intro s v hlook
  refine ⟨by simp only [lval_eval, lenv_get_eq_lookup, hlook], ?_⟩
  apply lval_eval_of_normal
  apply lval_normal_of_storable
  exact lval_copy_storable v (hst (s, v) (mem_of_lookup s v e hlook))

/-- Witness of C23: after `(def {x} {1 2})` in the builtin environment, `x`
evaluates to `{1 2}`, which evaluates to itself. -/
theorem lval_eval_idempotent_witness :
    lval_eval 1 (lenv_put builtin_env "x" (.qexpr [.num 1, .num 2])) (.sym "x")
      = .ok (.qexpr [.num 1, .num 2], lenv_put builtin_env "x" (.qexpr [.num 1, .num 2]))
    ∧ lval_eval 1 (lenv_put builtin_env "x" (.qexpr [.num 1, .num 2]))
        (.qexpr [.num 1, .num 2])
      = .ok (.qexpr [.num 1, .num 2], lenv_put builtin_env "x" (.qexpr [.num 1, .num 2])) :=
  (lval_eval_idempotent 0 (lenv_put builtin_env "x" (.qexpr [.num 1, .num 2]))
    (Or.inl (lenv_reachable.step 3 builtin_env _
      (.sexpr [.sym "def", .qexpr [.sym "x"], .qexpr [.num 1, .num 2]]) (.sexpr [])
      lenv_reachable.start rfl))).2 "x" (.qexpr [.num 1, .num 2]) rfl

/-- Witness of C29: `(def {x} (head {1 2}))` in the builtin environment
returns the empty S-expression and stores the Q-expression `{1}`. -/
theorem lval_eval_normal_form_witness :
    lval_eval 3 builtin_env
        (.sexpr [.sym "def", .qexpr [.sym "x"], .sexpr [.sym "head", .qexpr [.num 1, .num 2]]])
      = .ok (.sexpr [], lenv_put builtin_env "x" (.qexpr [.num 1]))
    ∧ lval_normal (.sexpr [])
    ∧ (∀ p ∈ lenv_put builtin_env "x" (.qexpr [.num 1]), lval_storable p.2)
    ∧ (∀ fuel' : Nat, lval_eval (fuel' + 1) (lenv_put builtin_env "x" (.qexpr [.num 1]))
        (.sexpr []) = .ok (.sexpr [], lenv_put builtin_env "x" (.qexpr [.num 1]))) :=
  ⟨rfl,
   (lval_eval_normal_form 3 builtin_env (lenv_put builtin_env "x" (.qexpr [.num 1]))
      (.sexpr [.sym "def", .qexpr [.sym "x"], .sexpr [.sym "head", .qexpr [.num 1, .num 2]]])
      (.sexpr []) builtin_env_storable rfl).1,
   (lval_eval_normal_form 3 builtin_env (lenv_put builtin_env "x" (.qexpr [.num 1]))
      (.sexpr [.sym "def", .qexpr [.sym "x"], .sexpr [.sym "head", .qexpr [.num 1, .num 2]]])
      (.sexpr []) builtin_env_storable rfl).2.2.2.1,
   (lval_eval_normal_form 3 builtin_env (lenv_put builtin_env "x" (.qexpr [.num 1]))
      (.sexpr [.sym "def", .qexpr [.sym "x"], .sexpr [.sym "head", .qexpr [.num 1, .num 2]]])
      (.sexpr []) builtin_env_storable rfl).2.2.2.2.2⟩

theorem s_eval_cells_nums (ns : List Int) :
    s_expressions.eval_cells (ns.map s_expressions.lval.num)
      = .ok (ns.map s_expressions.lval.num) := by
  induction ns with
  | nil => simp [s_expressions.eval_cells]
  | cons n rest ih => simp [s_expressions.eval_cells, s_expressions.lval_eval, ih]

theorem s_first_err_nums (ns : List Int) :
    s_expressions.first_err (ns.map s_expressions.lval.num) = none := by
  induction ns with
  | nil => rfl
  | cons n rest ih => simp [s_expressions.first_err, s_expressions.lval.type, ih]

theorem s_any_not_num_nums (ns : List Int) :
    (ns.map s_expressions.lval.num).any (fun c => decide (c.type ≠ .LVAL_NUM)) = false := by
  induction ns with
  | nil => rfl
  | cons n rest ih => simp [List.any_cons, s_expressions.lval.type]

theorem s_op_loop_unknown (op : String) (h1 : op ≠ "+") (h2 : op ≠ "-") (h3 : op ≠ "*")
    (h4 : op ≠ "/") (ns : List Int) :
    ∀ x : Int, s_expressions.op_loop op x (ns.map s_expressions.lval.num) = .ok (.num x) := by
  induction ns with
  | nil => intro x; simp [s_expressions.op_loop]
  | cons n rest ih =>
    intro x
    simp only [List.map_cons, s_expressions.op_loop, h1, h2, h3, h4, if_false]
    exact ih x

theorem s_eval_unknown_operator (op : String) (h1 : op ≠ "+") (h2 : op ≠ "-")
    (h3 : op ≠ "*") (h4 : op ≠ "/") (n0 : Int) (ns : List Int) :
    s_expressions.lval_eval (.sexpr (.sym op :: .num n0 :: ns.map s_expressions.lval.num))
      = .ok (.num n0) := by
  have hcells : s_expressions.eval_cells
      (.sym op :: .num n0 :: ns.map s_expressions.lval.num)
      = .ok (.sym op :: .num n0 :: ns.map s_expressions.lval.num) := by
    simp [s_expressions.eval_cells, s_expressions.lval_eval, s_eval_cells_nums]
  have hany := s_any_not_num_nums (n0 :: ns)
  simp only [List.map_cons] at hany
  simp only [s_expressions.lval_eval, hcells, s_expressions.lval_eval_sexpr_rest,
    s_expressions.first_err, s_expressions.lval.type, s_first_err_nums,
    s_expressions.builtin_op, hany, h2, false_and, if_false, s_op_loop_unknown op h1 h2 h3 h4]
  simp

/-- C27, on the side of the code.  In `src/s_expressions.c` an S-expression
whose operator is `%` or `^`, both accepted by the grammar, applied to
Numbers returns its first argument, a Number, not an Error: `builtin_op` has
no branch for them and none that rejects them, so `(% 5 2)` is `5`.  In
`src/q_expressions.c` the claim holds for `%` and `^` and for every name that
does not occur inside the string of the four operator characters that
`strstr` searches; a name made of several of these characters in a row, such
as `+` followed by `-`, passes the test and reaches `builtin_op`, which again
returns the first argument. -/
theorem unknown_operator_returns_first_argument :
    (∀ (n0 : Int) (ns : List Int),
      s_expressions.lval_eval (.sexpr (.sym "%" :: .num n0 :: ns.map s_expressions.lval.num))
        = .ok (.num n0))
    ∧ (∀ (n0 : Int) (ns : List Int),
      s_expressions.lval_eval (.sexpr (.sym "^" :: .num n0 :: ns.map s_expressions.lval.num))
        = .ok (.num n0))
    ∧ s_expressions.lval_eval (.sexpr [.sym "%", .num 5, .num 2]) = .ok (.num 5)
    ∧ s_expressions.lval_eval_sexpr [.sym "%", .num 5, .num 2] = .ok (.num 5)
    ∧ (∀ (ev : q_expressions.lval → Except Fault q_expressions.lval)
        (a : List q_expressions.lval),
        q_expressions.builtin ev a "%" = .ok (.err "Unknown Function!")
        ∧ q_expressions.builtin ev a "^" = .ok (.err "Unknown Function!"))
    ∧ (∀ (ev : q_expressions.lval → Except Fault q_expressions.lval)
        (a : List q_expressions.lval) (func : String),
        func ∉ ["list", "head", "tail", "join", "eval", "len"] →
        strstr "+-/*" func = false →
        q_expressions.builtin ev a func = .ok (.err "Unknown Function!"))
    ∧ (∀ ev : q_expressions.lval → Except Fault q_expressions.lval,
        q_expressions.builtin ev [.num 1, .num 2] "+-" = .ok (.num 1))
    ∧ q_expressions.lval_eval 2 (.sexpr [.sym "%", .num 5, .num 2])
        = .ok (.err "Unknown Function!") := by
  refine ⟨?_, ?_, rfl, rfl, fun _ _ => ⟨rfl, rfl⟩, ?_, fun _ => rfl, rfl⟩
  · exact s_eval_unknown_operator "%" (by decide) (by decide) (by decide) (by decide)
  · exact s_eval_unknown_operator "^" (by decide) (by decide) (by decide) (by decide)
  · intro ev a func hname hsub
    simp only [List.mem_cons, List.mem_singleton, List.not_mem_nil, or_false, not_or] at hname
    obtain ⟨h1, h2, h3, h4, h5, h6⟩ := hname
    simp only [q_expressions.builtin, hsub, Ne.symm h1, Ne.symm h2, Ne.symm h3, Ne.symm h4,
      Ne.symm h5, Ne.symm h6, if_false, q_expressions.lval_err]
    rfl

/-- Witness for the general statement on `src/q_expressions.c` in C27: the
name `foo`. -/
theorem unknown_operator_returns_first_argument_witness :
    q_expressions.builtin (q_expressions.lval_eval 1) [.num 1, .num 2] "foo"
      = .ok (.err "Unknown Function!") :=
  unknown_operator_returns_first_argument.2.2.2.2.2.1 (q_expressions.lval_eval 1)
    [.num 1, .num 2] "foo" (by decide) (by decide)

/-- Witness of C24 on the side of the code: the Symbol `def`. -/
theorem lval_copy_string_overflow_witness :
    lval_copy_malloc "def" + 2 = strcpy_bytes "def" :=
  lval_copy_string_overflow.1 "def" (by decide)

/-- C31: `head` and `tail` split a list without loss: for every non-empty
Q-expression `q`, `builtin_head` of `q` and `builtin_tail` of `q` both
succeed and `builtin_join` applied to their two results returns `q`; so
`(join (head {1 2 3}) (tail {1 2 3}))` evaluates to `{1 2 3}`. -/
theorem head_tail_join_lossless (e : lenv) (x0 : LVal) (xs : List LVal) :
    (∃ (h t : LVal),
      builtin_head e [.qexpr (x0 :: xs)] = .ok (h, e)
      ∧ builtin_tail e [.qexpr (x0 :: xs)] = .ok (t, e)
      ∧ builtin_join e [h, t] = .ok (.qexpr (x0 :: xs), e))
    ∧ lval_eval 3 builtin_env
        (.sexpr [.sym "join", .sexpr [.sym "head", .qexpr [.num 1, .num 2, .num 3]],
          .sexpr [.sym "tail", .qexpr [.num 1, .num 2, .num 3]]])
      = .ok (.qexpr [.num 1, .num 2, .num 3], builtin_env) := by
  refine ⟨⟨.qexpr [x0], .qexpr xs, ?_, ?_, ?_⟩, rfl⟩
  · simp [builtin_head, head_loop_eq]
  · simp [builtin_tail, lval_pop]
  · have hany := any_not_qexpr_map [[x0], xs]
    have hloop := join_loop_qexprs [xs] [x0]
    simp only [List.map_cons, List.map_nil] at hany hloop
    simp only [builtin_join, hany, hloop]
    simp

namespace q_expressions

end q_expressions

